import Mathlib

/-!
# Verification of the `bevy_tile_atlas` tile-atlas builder

A shallow embedding of `src/tile_atlas.rs` (crate `bevy_tile_atlas`) together
with proofs about the claims of its specification.

Modelling conventions:

* `Vec2` components are modelled as `Nat`.  Every `Vec2` value that reaches the
  builder in the behaviours under study is a nonnegative integer (texture
  dimensions are `u32`, and the auto-detected tile size is the integral
  `texture.size.as_vec3().truncate()`), and `f32` arithmetic on such integers
  below `2^24` is exact.  The `as u32` / `as usize` casts saturate, which is
  modelled by `u32sat` / `usizeMax`.
* Byte buffers (`Vec<u8>` / `texture.data`) are `List Nat`.
* Fallible Rust slicing / `unwrap` / `expect` (panics) are modelled with
  `Option` at the helper level and by the `panic` constructors of
  `LoopResult` / `FinishResult` at the `finish` level.
* The external `TextureStore` capability (trait in `src/store.rs`) is
  modelled as an in-memory association list; `add` produces a fresh handle
  that shadows any previous binding, which models the host asset system's
  guarantee that freshly minted handles are unique.
* `bevy`'s `Texture::convert` is external to the crate; everything is
  parameterised by a function `convert : Texture → TextureFormat → Option
  Texture`, so all theorems hold for any conversion behaviour.
* Rust's `HashMap<Handle, usize>` is modelled as an association list with
  insert-overwrites-duplicate semantics (`hashmap_insert`), which preserves
  the observable entry count and lookup behaviour.
-/

set_option maxHeartbeats 1000000
set_option maxRecDepth 20000

namespace BevyTileAtlas

/-- 2D vector (`bevy::prelude::Vec2`), integer-modelled (see module comment). -/
structure Vec2 where
  x : Nat
  y : Nat
deriving DecidableEq, Repr

/-- `bevy::render::texture::Extent3d`. -/
structure Extent3d where
  width : Nat
  height : Nat
  depth : Nat
deriving DecidableEq, Repr

/-- `bevy::render::texture::TextureDimension`. -/
inductive TextureDimension
  | D1
  | D2
  | D3
deriving DecidableEq, Repr

/-- The texture formats relevant to this development (the crate's default
`Rgba8UnormSrgb` plus representatives with equal and different pixel sizes). -/
inductive TextureFormat
  | Rgba8UnormSrgb
  | Rgba8Unorm
  | R8Unorm
deriving DecidableEq, Repr

/-- `TextureFormat::pixel_size()`: bytes per pixel. -/
def TextureFormat.pixel_size : TextureFormat → Nat
  | .Rgba8UnormSrgb => 4
  | .Rgba8Unorm => 4
  | .R8Unorm => 1

/-- `bevy::prelude::Texture`: dimensions, format and raw byte data. -/
structure Texture where
  size : Extent3d
  dimension : TextureDimension
  format : TextureFormat
  data : List Nat
deriving DecidableEq, Repr

/-- `Texture::new_fill`: a buffer of `volume * pixel_size` bytes filled by
cycling the given pixel bytes. -/
def Texture.new_fill (size : Extent3d) (dimension : TextureDimension)
    (pixel : List Nat) (format : TextureFormat) : Texture :=
  { size := size, dimension := dimension, format := format,
    data := (List.range (size.width * size.height * size.depth * format.pixel_size)).map
      (fun i => pixel.getD (i % pixel.length) 0) }

/-- Opaque image reference (`Handle<Texture>`), modelled as a plain id;
`clone_weak` preserves the id and is therefore the identity here. -/
abbrev Handle := Nat

/-- In-memory model of the `TextureStore` capability (`src/store.rs`):
`get` looks a handle up, `add` stores a texture under a fresh handle. -/
structure TextureStore where
  entries : List (Handle × Texture)
  next_handle : Handle
deriving DecidableEq, Repr

/-- `TextureStore::get`. -/
def TextureStore.get (s : TextureStore) (handle : Handle) : Option Texture :=
  (s.entries.find? (fun p => p.fst == handle)).map Prod.snd

/-- `TextureStore::add`: stores the asset under a fresh handle (freshness is
modelled by prepending, so the new binding shadows any older one) and returns
the updated store together with the new handle. -/
def TextureStore.add (s : TextureStore) (asset : Texture) : TextureStore × Handle :=
  ({ entries := (s.next_handle, asset) :: s.entries, next_handle := s.next_handle + 1 },
    s.next_handle)

/-- `bevy::sprite::TextureAtlasBuilderError` (only the variant the crate uses). -/
inductive TextureAtlasBuilderError
  | WrongFormat
deriving DecidableEq, Repr

/-- `TileAtlasBuilderError` (`src/tile_atlas.rs`, lines 9-17). -/
inductive TileAtlasBuilderError
  | InvalidTileSize (expected found : Vec2)
  | EmptyAtlas
  | Internal (e : TextureAtlasBuilderError)
deriving DecidableEq, Repr

/-- `bevy::sprite::Rect`. -/
structure Rect where
  min : Vec2
  max : Vec2
deriving DecidableEq, Repr

/-- `bevy::prelude::TextureAtlas` (the fields `finish` populates). -/
structure TextureAtlas where
  size : Vec2
  texture : Handle
  textures : List Rect
  texture_handles : List (Handle × Nat)
deriving DecidableEq, Repr

/-- `HashMap::insert`: overwrite the value when the key is present, otherwise
add a new entry. -/
def hashmap_insert (m : List (Handle × Nat)) (k : Handle) (v : Nat) : List (Handle × Nat) :=
  if m.any (fun p => p.fst == k) then m.map (fun p => if p.fst == k then (k, v) else p)
  else m ++ [(k, v)]

/-- `HashMap::get`. -/
def hashmap_get (m : List (Handle × Nat)) (k : Handle) : Option Nat :=
  (m.find? (fun p => p.fst == k)).map Prod.snd

/-- `usize::MAX` on a 64-bit target. -/
def usizeMax : Nat := 2 ^ 64 - 1

/-- Saturating `f32 as u32` cast on a nonnegative integral value. -/
def u32sat (n : Nat) : Nat := min n (2 ^ 32 - 1)

/-- `TileAtlasBuilder` (`src/tile_atlas.rs`, lines 21-36). -/
structure TileAtlasBuilder where
  tile_size : Option Vec2
  max_columns : Option Nat
  handles : List Handle
  format : TextureFormat
  auto_format_conversion : Bool
deriving DecidableEq, Repr

/-- `impl Default for TileAtlasBuilder`. -/
def TileAtlasBuilder.default : TileAtlasBuilder :=
  { tile_size := none, max_columns := none, handles := [],
    format := .Rgba8UnormSrgb, auto_format_conversion := true }

/-- `TileAtlasBuilder::new`. -/
def TileAtlasBuilder.new (tile_size : Vec2) : TileAtlasBuilder :=
  { TileAtlasBuilder.default with tile_size := some tile_size }

/-- `TileAtlasBuilder::tile_size` (the setter, lines 93-100; named
`set_tile_size` here because the field of the same name takes the Rust name).
Clears all previously added handles. -/
def TileAtlasBuilder.set_tile_size (b : TileAtlasBuilder) (size : Option Vec2) :
    TileAtlasBuilder :=
  { b with tile_size := size, handles := [] }

/-- `TileAtlasBuilder::max_columns` (the setter, lines 105-108). -/
def TileAtlasBuilder.set_max_columns (b : TileAtlasBuilder) (max_columns : Option Nat) :
    TileAtlasBuilder :=
  { b with max_columns := max_columns }

/-- `TileAtlasBuilder::format` (the setter, lines 111-114). -/
def TileAtlasBuilder.set_format (b : TileAtlasBuilder) (format : TextureFormat) :
    TileAtlasBuilder :=
  { b with format := format }

/-- `TileAtlasBuilder::auto_format_conversion` (the setter, lines 117-120). -/
def TileAtlasBuilder.set_auto_format_conversion (b : TileAtlasBuilder)
    (auto_format_conversion : Bool) : TileAtlasBuilder :=
  { b with auto_format_conversion := auto_format_conversion }

/-- `TileAtlasBuilder::get_tile_size`. -/
def TileAtlasBuilder.get_tile_size (b : TileAtlasBuilder) : Option Vec2 :=
  b.tile_size

/-- `TileAtlasBuilder::get_max_columns`: `self.max_columns.unwrap_or(self.handles.len())`. -/
def TileAtlasBuilder.get_max_columns (b : TileAtlasBuilder) : Nat :=
  b.max_columns.getD b.handles.length

/-- `TileAtlasBuilder::len`. -/
def TileAtlasBuilder.len (b : TileAtlasBuilder) : Nat :=
  b.handles.length

/-- `TileAtlasBuilder::add_texture` (lines 153-175).  Returns the updated
builder (Rust mutates `self`) together with the `Result`. -/
def TileAtlasBuilder.add_texture (b : TileAtlasBuilder) (texture_handle : Handle)
    (texture : Texture) : TileAtlasBuilder × Except TileAtlasBuilderError Nat :=
  match b.tile_size with
  | some size =>
    if texture.size.width > size.x || texture.size.height > size.y then
      let expected := size
      let found : Vec2 := ⟨texture.size.width, texture.size.height⟩
      (b, .error (.InvalidTileSize expected found))
    else
      let b' := { b with handles := b.handles ++ [texture_handle] }
      (b', .ok (b'.handles.length - 1))
  | none =>
    let new_size : Vec2 := ⟨texture.size.width, texture.size.height⟩
    let b' := { b with tile_size := some new_size,
                       handles := b.handles ++ [texture_handle] }
    (b', .ok (b'.handles.length - 1))

/-- Rust slice assignment `d[start..start+src.len()].copy_from_slice(src)`
(after the bounds have been checked). -/
def writeRange (d : List Nat) (start : Nat) (src : List Nat) : List Nat :=
  d.take start ++ src ++ d.drop (start + src.length)

/-- Rust slice read `&d[start..start+len]` (after the bounds have been checked). -/
def readRange (d : List Nat) (start len : Nat) : List Nat :=
  (d.drop start).take len

/-- The body of the scanline loop of `copy_texture_to_atlas` (lines 282-290):
one iteration writes scanline `texture_y` of the tile into the atlas buffer,
or fails (`none` = Rust slice-index panic) when either slice is out of
bounds. -/
def blitStep (texdata : List Nat) (atlas_width rect_x rect_y rect_width format_size : Nat)
    (acc : Option (List Nat)) (texture_y : Nat) : Option (List Nat) :=
  acc.bind fun d =>
    let bound_y := rect_y + texture_y
    let beg := (bound_y * atlas_width + rect_x) * format_size
    let stop := beg + rect_width * format_size
    let texture_begin := texture_y * rect_width * format_size
    let texture_end := texture_begin + rect_width * format_size
    if stop ≤ d.length ∧ texture_end ≤ texdata.length then
      some (writeRange d beg (readRange texdata texture_begin (rect_width * format_size)))
    else
      none

/-- `TileAtlasBuilder::copy_texture_to_atlas` (lines 265-291): the scanline
blit.  `none` models a panic (the `expect` on `tile_size`, or an
out-of-bounds slice index). -/
def TileAtlasBuilder.copy_texture_to_atlas (b : TileAtlasBuilder)
    (atlas_texture texture : Texture) (column_index row_index : Nat) : Option Texture :=
  match b.tile_size with
  | none => none
  | some tile_size =>
    let rect_width := tile_size.x
    let rect_height := tile_size.y
    let rect_x := column_index * tile_size.x
    let rect_y := row_index * tile_size.y
    let atlas_width := atlas_texture.size.width
    let format_size := atlas_texture.format.pixel_size
    let data? := (List.range rect_height).foldl
      (blitStep texture.data atlas_width rect_x rect_y rect_width format_size)
      (some atlas_texture.data)
    data?.map (fun d => { atlas_texture with data := d })

/-- `TileAtlasBuilder::copy_converted_texture` (lines 242-263), parameterised
by the external `Texture::convert`.  A failed conversion is logged and ignored
(the atlas is returned unchanged). -/
def TileAtlasBuilder.copy_converted_texture (b : TileAtlasBuilder)
    (convert : Texture → TextureFormat → Option Texture)
    (atlas_texture texture : Texture) (column_index row_index : Nat) : Option Texture :=
  if b.format = texture.format then
    b.copy_texture_to_atlas atlas_texture texture column_index row_index
  else
    match convert texture b.format with
    | some converted_texture =>
      b.copy_texture_to_atlas atlas_texture converted_texture column_index row_index
    | none => some atlas_texture

/-- Outcome of the per-tile loop inside `finish`. -/
inductive LoopResult
  | ok (texture_handles : List (Handle × Nat)) (texture_rects : List Rect)
      (atlas_texture : Texture)
  | err (e : TileAtlasBuilderError)
  | panic
deriving DecidableEq, Repr

/-- The per-tile placement loop of `finish` (lines 202-232), made explicit:
state is `(remaining handles, index, row_idx, col_idx, texture_handles,
texture_rects, atlas_texture)`.  `panic` models `textures.get(..).unwrap()`
failing, a blit panic, or `wrapping_rem` by a zero column count. -/
def TileAtlasBuilder.finishLoop (b : TileAtlasBuilder)
    (convert : Texture → TextureFormat → Option Texture) (textures : TextureStore)
    (tile_size : Vec2) :
    List Handle → Nat → Nat → Nat → List (Handle × Nat) → List Rect → Texture → LoopResult
  | [], _, _, _, texture_handles, texture_rects, atlas_texture =>
    .ok texture_handles texture_rects atlas_texture
  | handle :: rest, index, row_idx, col_idx, texture_handles, texture_rects, atlas_texture =>
    match textures.get handle with
    | none => .panic
    | some texture =>
      let x := col_idx * tile_size.x
      let y := row_idx * tile_size.y
      let mn : Vec2 := ⟨x, y⟩
      let mx : Vec2 := ⟨x + tile_size.x, y + tile_size.y⟩
      let texture_handles := hashmap_insert texture_handles handle index
      let texture_rects := texture_rects ++ [⟨mn, mx⟩]
      if texture.format ≠ b.format ∧ b.auto_format_conversion = false then
        .err (.Internal .WrongFormat)
      else
        match b.copy_converted_texture convert atlas_texture texture col_idx row_idx with
        | none => .panic
        | some atlas_texture =>
          if b.get_max_columns = 0 then
            .panic
          else if (index + 1) % b.get_max_columns = 0 then
            b.finishLoop convert textures tile_size rest (index + 1) (row_idx + 1) 0
              texture_handles texture_rects atlas_texture
          else
            b.finishLoop convert textures tile_size rest (index + 1) row_idx (col_idx + 1)
              texture_handles texture_rects atlas_texture

/-- Outcome of `finish`: the atlas descriptor and updated store, an error with
the (unchanged) store, or a panic. -/
inductive FinishResult
  | ok (atlas : TextureAtlas) (store : TextureStore)
  | err (e : TileAtlasBuilderError) (store : TextureStore)
  | panic
deriving DecidableEq, Repr

/-- `TileAtlasBuilder::finish` (lines 178-240), parameterised by the external
`Texture::convert`.  `(total as f32 / cols as f32).ceil() as usize` is exact
ceiling division on the integral range; division by zero yields `+inf`, which
the `as usize` cast saturates to `usize::MAX`. -/
def TileAtlasBuilder.finish (b : TileAtlasBuilder)
    (convert : Texture → TextureFormat → Option Texture)
    (textures : TextureStore) : FinishResult :=
  let total := b.handles.length
  if total = 0 then .err .EmptyAtlas textures
  else
    match b.tile_size with
    | none => .panic
    | some tile_size =>
      let total_rows :=
        if b.get_max_columns = 0 then usizeMax
        else (total + b.get_max_columns - 1) / b.get_max_columns
      let atlas_texture := Texture.new_fill
        ⟨u32sat (b.get_max_columns * tile_size.x), u32sat (total_rows * tile_size.y), 1⟩
        .D2 [0, 0, 0, 0] b.format
      match b.finishLoop convert textures tile_size b.handles 0 0 0 [] [] atlas_texture with
      | .panic => .panic
      | .err e => .err e textures
      | .ok texture_handles texture_rects atlas_texture =>
        let added := textures.add atlas_texture
        .ok { size := ⟨atlas_texture.size.width, atlas_texture.size.height⟩,
              texture := added.2, textures := texture_rects,
              texture_handles := texture_handles } added.1

/-- The grid rectangle of tile `n` in a layout with `cols` columns:
`min = (n % cols * w, n / cols * h)`, `max = min + tile_size`. -/
def gridRect (tile_size : Vec2) (cols n : Nat) : Rect :=
  ⟨⟨n % cols * tile_size.x, n / cols * tile_size.y⟩,
   ⟨n % cols * tile_size.x + tile_size.x, n / cols * tile_size.y + tile_size.y⟩⟩

/-- The bytes of cell `n` in an atlas buffer of scanline width `w` pixels:
the `tile_size.y` scanline segments of the cell, concatenated. -/
def readCell (d : List Nat) (w ps : Nat) (tile_size : Vec2) (cols n : Nat) : List Nat :=
  ((List.range tile_size.y).map (fun k =>
    readRange d ((( n / cols * tile_size.y + k) * w + n % cols * tile_size.x) * ps)
      (tile_size.x * ps))).flatten

/-- Repeated `hashmap_insert` of consecutive indices, as performed by the
`finish` loop. -/
def insertAll (m : List (Handle × Nat)) : List Handle → Nat → List (Handle × Nat)
  | [], _ => m
  | h :: t, i => insertAll (hashmap_insert m h i) t (i + 1)

/-- Calling `add_texture` once per given `(handle, texture)` pair, in order
(as the crate's doc example does), collecting every result. -/
def add_all (b : TileAtlasBuilder) :
    List (Handle × Texture) → TileAtlasBuilder × List (Except TileAtlasBuilderError Nat)
  | [] => (b, [])
  | (h, t) :: rest =>
    let step := b.add_texture h t
    let next := add_all step.1 rest
    (next.1, step.2 :: next.2)

/-- A tile that the `finish` loop processes without an error or a panic:
its handle resolves in the store, and either its format matches the target
and its data covers one full cell, or its format mismatches while
auto-conversion is enabled and the conversion fails (the skip path). -/
def TileOk (b : TileAtlasBuilder) (convert : Texture → TextureFormat → Option Texture)
    (store : TextureStore) (ts : Vec2) (h : Handle) : Prop :=
  ∃ tex, store.get h = some tex ∧
    ((tex.format = b.format ∧ ts.y * (ts.x * b.format.pixel_size) ≤ tex.data.length) ∨
      (tex.format ≠ b.format ∧ b.auto_format_conversion = true ∧
        convert tex b.format = none))

/-! ## Concrete fixtures used by witnesses and counterexamples -/

/-- A conversion function that always fails; theorems quantified over
`convert` are instantiated with it where the conversion is never reached or
is meant to fail. -/
def convNone : Texture → TextureFormat → Option Texture := fun _ _ => none

/-- A `w × h` texture with the given format and data bytes. -/
def mkTexture (w h : Nat) (format : TextureFormat) (data : List Nat) : Texture :=
  { size := ⟨w, h, 1⟩, dimension := .D2, format := format, data := data }

/-- The number of entries of the handle-to-index map of a successful finish. -/
def FinishResult.handlesLen : FinishResult → Option Nat
  | .ok a _ => some a.texture_handles.length
  | _ => none

/-- The index recorded for a given handle by a successful finish. -/
def FinishResult.lookupIdx (r : FinishResult) (k : Handle) : Option Nat :=
  match r with
  | .ok a _ => hashmap_get a.texture_handles k
  | _ => none

/-- A 1×1 RGBA tile used by the duplicate-handle counterexample. -/
def dupTile : Texture := mkTexture 1 1 .Rgba8UnormSrgb [1, 2, 3, 4]

/-- The same handle `5` added twice. -/
def dupTiles : List (Handle × Texture) := [(5, dupTile), (5, dupTile)]

/-- A store resolving handle `5`. -/
def dupStore : TextureStore := ⟨[(5, dupTile)], 100⟩

/-- The builder after adding `dupTiles`. -/
def bDup : TileAtlasBuilder := (add_all (TileAtlasBuilder.new ⟨1, 1⟩) dupTiles).1

/-- A 1×1 tile, strictly smaller than the 2×2 tile size of `bSmall`. -/
def smallTile : Texture := mkTexture 1 1 .Rgba8UnormSrgb [9, 9, 9, 9]

/-- A builder with tile size 2×2 holding the 1×1 `smallTile`. -/
def bSmall : TileAtlasBuilder :=
  ((TileAtlasBuilder.new ⟨2, 2⟩).add_texture 0 smallTile).1

/-- A store resolving `bSmall`'s handle. -/
def storeSmall : TextureStore := ⟨[(0, smallTile)], 100⟩

/-- A 1×1 tile in the builder's own format. -/
def matchingTile : Texture := mkTexture 1 1 .Rgba8UnormSrgb [1, 2, 3, 4]

/-- A 1×1 tile in a different format (`R8Unorm`). -/
def mismatchedTile : Texture := mkTexture 1 1 .R8Unorm [9]

/-- A builder with `max_columns = Some(0)` and one format-matching tile. -/
def bZeroCols : TileAtlasBuilder :=
  (((TileAtlasBuilder.new ⟨1, 1⟩).set_max_columns (some 0)).add_texture 0 matchingTile).1

/-- A store resolving `bZeroCols`'s handle. -/
def storeZeroCols : TextureStore := ⟨[(0, matchingTile)], 100⟩

/-- A builder with `max_columns = Some(0)`, auto-conversion disabled, and one
format-mismatched tile. -/
def bZeroColsStrict : TileAtlasBuilder :=
  ((((TileAtlasBuilder.new ⟨1, 1⟩).set_max_columns (some 0)).set_auto_format_conversion
    false).add_texture 0 mismatchedTile).1

/-- A store resolving `bZeroColsStrict`'s handle. -/
def storeZeroColsStrict : TextureStore := ⟨[(0, mismatchedTile)], 100⟩

/-- Whether a finish outcome is a success. -/
def FinishResult.isOk : FinishResult → Bool
  | .ok _ _ => true
  | _ => false

/-- Two distinct handles, both resolving to 1×1 tiles of the target format. -/
def tilesPair : List (Handle × Texture) := [(3, matchingTile), (4, matchingTile)]

/-- A store resolving the two handles of `tilesPair`. -/
def storePair : TextureStore := ⟨[(3, matchingTile), (4, matchingTile)], 100⟩

/-- A 16×16 tile in the target format, solid byte value 7. -/
def tile16 : Texture := mkTexture 16 16 .Rgba8UnormSrgb (List.replicate 1024 7)

/-- A builder holding seven 16×16 tiles with a column limit of 3. -/
def bGrid : TileAtlasBuilder :=
  ⟨some ⟨16, 16⟩, some 3, [0, 1, 2, 3, 4, 5, 6], .Rgba8UnormSrgb, true⟩

/-- A store resolving the seven handles of `bGrid` to `tile16`. -/
def storeGrid : TextureStore := ⟨(List.range 7).map (fun i => (i, tile16)), 100⟩

/-- A store with one matching-format tile and one mismatched-format tile. -/
def storeMixed : TextureStore := ⟨[(0, matchingTile), (1, mismatchedTile)], 100⟩

/-- A strict (no auto-conversion) builder holding the two `storeMixed` tiles. -/
def bStrictPair : TileAtlasBuilder :=
  ⟨some ⟨1, 1⟩, none, [0, 1], .Rgba8UnormSrgb, false⟩

/-- An auto-converting builder holding the two `storeMixed` tiles. -/
def bAutoPair : TileAtlasBuilder :=
  ⟨some ⟨1, 1⟩, none, [0, 1], .Rgba8UnormSrgb, true⟩

/-- A builder holding a single matching-format tile. -/
def bSingle : TileAtlasBuilder :=
  ⟨some ⟨1, 1⟩, none, [0], .Rgba8UnormSrgb, true⟩

/-- A store resolving `bSingle`'s handle. -/
def storeSingle : TextureStore := ⟨[(0, matchingTile)], 100⟩

/-! ## Theorems -/

/-! ### Byte-range surgery -/

theorem readRange_length_of_le {d : List Nat} {s l : Nat} (h : s + l ≤ d.length) :
    (readRange d s l).length = l := by
  simp only [readRange, List.length_take, List.length_drop]
  omega

theorem writeRange_length {d src : List Nat} {s : Nat} (h : s + src.length ≤ d.length) :
    (writeRange d s src).length = d.length := by
  simp only [writeRange, List.length_append, List.length_take, List.length_drop]
  omega

theorem readRange_writeRange_self {d src : List Nat} {s : Nat}
    (h : s + src.length ≤ d.length) :
    readRange (writeRange d s src) s src.length = src := by
  have hts : (List.take s d).length = s := by
    simp only [List.length_take]
    omega
  unfold readRange writeRange
  rw [List.append_assoc, List.drop_append_eq_append_drop, hts, Nat.sub_self]
  simp [List.drop_take, List.take_left]

theorem readRange_writeRange_left {d src : List Nat} {s a l : Nat}
    (hd : s + src.length ≤ d.length) (hl : a + l ≤ s) :
    readRange (writeRange d s src) a l = readRange d a l := by
  have hts : (List.take s d).length = s := by
    simp only [List.length_take]
    omega
  unfold readRange writeRange
  rw [List.append_assoc, List.drop_append_eq_append_drop, hts,
    List.take_append_eq_append_take]
  have h1 : (List.drop a (List.take s d)).length = s - a := by
    simp only [List.length_drop, List.length_take]
    omega
  rw [h1, Nat.sub_eq_zero_of_le (by omega : l ≤ s - a), List.take_zero,
    List.append_nil, List.drop_take, List.take_take]
  congr 1
  omega

theorem readRange_writeRange_right {d src : List Nat} {s a l : Nat}
    (hd : s + src.length ≤ d.length) (ha : s + src.length ≤ a) :
    readRange (writeRange d s src) a l = readRange d a l := by
  have hts : (List.take s d).length = s := by
    simp only [List.length_take]
    omega
  unfold readRange writeRange
  rw [List.append_assoc, List.drop_append_eq_append_drop, hts,
    List.drop_append_eq_append_drop]
  have h1 : List.drop a (List.take s d) = [] := by
    apply List.drop_eq_nil_of_le
    simp only [List.length_take]
    omega
  have h2 : List.drop (a - s) src = [] := List.drop_eq_nil_of_le (by omega)
  rw [h1, h2, List.nil_append, List.nil_append, List.drop_drop]
  congr 2
  omega

theorem flatten_readRange_chunks (t : List Nat) (L : Nat) :
    ∀ m, m * L ≤ t.length →
      ((List.range m).map (fun k => readRange t (k * L) L)).flatten = t.take (m * L) := by
  intro m
  induction m with
  | zero => simp
  | succ n ih =>
    intro h
    rw [List.range_succ, List.map_append, List.flatten_append,
      ih (by nlinarith)]
    simp only [List.map_cons, List.map_nil, List.flatten_cons, List.flatten_nil,
      List.append_nil]
    rw [show (n + 1) * L = n * L + L by ring, List.take_add]
    rfl

theorem readRange_replicate {L s l : Nat} (h : s + l ≤ L) :
    readRange (List.replicate L (0 : Nat)) s l = List.replicate l 0 := by
  simp only [readRange, List.drop_replicate, List.take_replicate]
  congr 1
  omega

theorem flatten_replicate_chunks (m R : Nat) :
    ((List.range m).map (fun _ => List.replicate R (0 : Nat))).flatten =
      List.replicate (m * R) 0 := by
  induction m with
  | zero => simp
  | succ n ih =>
    rw [List.range_succ, List.map_append, List.flatten_append, ih]
    simp only [List.map_cons, List.map_nil, List.flatten_cons, List.flatten_nil,
      List.append_nil]
    rw [show (n + 1) * R = n * R + R by ring, List.replicate_add]

/-! ### Scanline blit specification -/

theorem blitFold_spec (texdata d0 : List Nat) (W rx ry rw ps : Nat)
    (hxw : rx + rw ≤ W) :
    ∀ m, (∀ k, k < m → ((ry + k) * W + rx) * ps + rw * ps ≤ d0.length) →
      (∀ k, k < m → k * rw * ps + rw * ps ≤ texdata.length) →
    ∃ d', (List.range m).foldl (blitStep texdata W rx ry rw ps) (some d0) = some d' ∧
      d'.length = d0.length ∧
      (∀ k, k < m → readRange d' (((ry + k) * W + rx) * ps) (rw * ps) =
        readRange texdata (k * rw * ps) (rw * ps)) ∧
      (∀ a l, (∀ k, k < m → a + l ≤ ((ry + k) * W + rx) * ps ∨
          ((ry + k) * W + rx) * ps + rw * ps ≤ a) →
        readRange d' a l = readRange d0 a l) := by
  have hofflt : ∀ k k' : Nat, k < k' →
      ((ry + k) * W + rx) * ps + rw * ps ≤ ((ry + k') * W + rx) * ps := by
    intro k k' hkk
    have h1 : (ry + k) * W + rx + rw ≤ (ry + k + 1) * W := by nlinarith
    have h2 : (ry + k + 1) * W ≤ (ry + k') * W := by
      exact mul_le_mul_right' (by omega) W
    have h3 : ((ry + k) * W + rx + rw) * ps ≤ ((ry + k') * W + rx) * ps := by
      exact mul_le_mul_right' (by omega) ps
    nlinarith
  intro m
  induction m with
  | zero =>
    intro _ _
    exact ⟨d0, rfl, rfl, fun k hk => absurd hk (Nat.not_lt_zero k),
      fun a l _ => rfl⟩
  | succ n ih =>
    intro hb ht
    obtain ⟨d', hfold, hlen, hrows, hpres⟩ :=
      ih (fun k hk => hb k (by omega)) (fun k hk => ht k (by omega))
    have hbn := hb n (by omega)
    have htn := ht n (by omega)
    have hsrclen : (readRange texdata (n * rw * ps) (rw * ps)).length = rw * ps :=
      readRange_length_of_le (by omega)
    have hguard : ((ry + n) * W + rx) * ps + rw * ps ≤ d'.length ∧
        n * rw * ps + rw * ps ≤ texdata.length := ⟨by rw [hlen]; exact hbn, htn⟩
    have hwr : ((ry + n) * W + rx) * ps +
        (readRange texdata (n * rw * ps) (rw * ps)).length ≤ d'.length := by
      rw [hsrclen]
      exact hguard.1
    refine ⟨writeRange d' (((ry + n) * W + rx) * ps)
        (readRange texdata (n * rw * ps) (rw * ps)), ?_, ?_, ?_, ?_⟩
    · rw [List.range_succ, List.foldl_append, hfold]
      simp only [List.foldl_cons, List.foldl_nil, blitStep, Option.bind]
      rw [if_pos hguard]
    · rw [writeRange_length hwr, hlen]
    · intro k hk
      rcases Nat.lt_or_ge k n with hkn | hkn
      · rw [readRange_writeRange_left hwr (by
          have := hofflt k n hkn
          omega)]
        exact hrows k hkn
      · have hkeq : k = n := by omega
        subst hkeq
        have := readRange_writeRange_self hwr
        rw [hsrclen] at this
        rw [this]
    · intro a l hdisj
      rcases hdisj n (by omega) with hcase | hcase
      · rw [readRange_writeRange_left hwr hcase]
        exact hpres a l (fun k hk => hdisj k (by omega))
      · rw [readRange_writeRange_right hwr (by rw [hsrclen]; exact hcase)]
        exact hpres a l (fun k hk => hdisj k (by omega))

theorem copy_texture_to_atlas_spec (b : TileAtlasBuilder) (atlas texture : Texture)
    (col row : Nat) (ts : Vec2) (hts : b.tile_size = some ts)
    (hxw : col * ts.x + ts.x ≤ atlas.size.width)
    (hb : ∀ k, k < ts.y →
      ((row * ts.y + k) * atlas.size.width + col * ts.x) * atlas.format.pixel_size +
        ts.x * atlas.format.pixel_size ≤ atlas.data.length)
    (htex : ∀ k, k < ts.y →
      k * ts.x * atlas.format.pixel_size + ts.x * atlas.format.pixel_size ≤
        texture.data.length) :
    ∃ a', b.copy_texture_to_atlas atlas texture col row = some a' ∧
      a'.size = atlas.size ∧ a'.format = atlas.format ∧
      a'.data.length = atlas.data.length ∧
      (∀ k, k < ts.y →
        readRange a'.data
          (((row * ts.y + k) * atlas.size.width + col * ts.x) * atlas.format.pixel_size)
          (ts.x * atlas.format.pixel_size) =
        readRange texture.data (k * ts.x * atlas.format.pixel_size)
          (ts.x * atlas.format.pixel_size)) ∧
      (∀ a l, (∀ k, k < ts.y →
          a + l ≤ ((row * ts.y + k) * atlas.size.width + col * ts.x) *
            atlas.format.pixel_size ∨
          ((row * ts.y + k) * atlas.size.width + col * ts.x) * atlas.format.pixel_size +
            ts.x * atlas.format.pixel_size ≤ a) →
        readRange a'.data a l = readRange atlas.data a l) := by
  obtain ⟨d', h1, h2, h3, h4⟩ := blitFold_spec texture.data atlas.data
    atlas.size.width (col * ts.x) (row * ts.y) ts.x atlas.format.pixel_size hxw
    ts.y hb htex
  refine ⟨{ atlas with data := d' }, ?_, rfl, rfl, h2, h3, h4⟩
  unfold TileAtlasBuilder.copy_texture_to_atlas
  rw [hts]
  dsimp only
  rw [h1]
  rfl

/-! ### Grid arithmetic -/

theorem offset_chain (P Q S W xn xn' tsx : Nat)
    (h1 : S ≤ Q) (h0 : S = P + W) (hxb : xn + tsx ≤ W) :
    P + xn + tsx ≤ Q + xn' := by omega

theorem cell_rows_disjoint (W tsx tsy cols : Nat) (hcols : 0 < cols)
    (hW : cols * tsx ≤ W) (n n' : Nat) (hne : n ≠ n') (k k' : Nat)
    (hk : k < tsy) (hk' : k' < tsy) :
    (n' / cols * tsy + k') * W + n' % cols * tsx + tsx ≤
      (n / cols * tsy + k) * W + n % cols * tsx ∨
    (n / cols * tsy + k) * W + n % cols * tsx + tsx ≤
      (n' / cols * tsy + k') * W + n' % cols * tsx := by
  have hxb1 : n % cols * tsx + tsx ≤ W := by
    have h := Nat.mod_lt n hcols
    nlinarith
  have hxb2 : n' % cols * tsx + tsx ≤ W := by
    have h := Nat.mod_lt n' hcols
    nlinarith
  rcases lt_trichotomy (n / cols * tsy + k) (n' / cols * tsy + k') with hy | hy | hy
  · -- the (n, k) scanline lies in an earlier block
    right
    have h1 : (n / cols * tsy + k + 1) * W ≤ (n' / cols * tsy + k') * W :=
      mul_le_mul_right' (by omega) W
    have h0 : (n / cols * tsy + k + 1) * W = (n / cols * tsy + k) * W + W := by ring
    exact offset_chain _ _ _ _ _ _ _ h1 h0 hxb1
  · -- same scanline block: the columns must differ
    have hdiv : n / cols = n' / cols := by
      rcases lt_trichotomy (n / cols) (n' / cols) with h | h | h
      · exfalso
        have h1 : (n / cols + 1) * tsy ≤ n' / cols * tsy :=
          mul_le_mul_right' (by omega) tsy
        have h0 : (n / cols + 1) * tsy = n / cols * tsy + tsy := by ring
        linarith
      · exact h
      · exfalso
        have h1 : (n' / cols + 1) * tsy ≤ n / cols * tsy :=
          mul_le_mul_right' (by omega) tsy
        have h0 : (n' / cols + 1) * tsy = n' / cols * tsy + tsy := by ring
        linarith
    have hyW : n / cols * tsy + k = n' / cols * tsy + k' := hy
    have hmulW : (n / cols * tsy + k) * W = (n' / cols * tsy + k') * W := by rw [hyW]
    have hmod : n % cols ≠ n' % cols := by
      intro hm
      apply hne
      have e1 := Nat.div_add_mod n cols
      have e2 := Nat.div_add_mod n' cols
      rw [hdiv, hm] at e1
      linarith
    rcases Nat.lt_or_ge (n % cols) (n' % cols) with h | h
    · right
      have hx : (n % cols + 1) * tsx ≤ n' % cols * tsx :=
        mul_le_mul_right' (by omega) tsx
      have hx0 : (n % cols + 1) * tsx = n % cols * tsx + tsx := by ring
      linarith
    · left
      have h' : n' % cols < n % cols := by omega
      have hx : (n' % cols + 1) * tsx ≤ n % cols * tsx :=
        mul_le_mul_right' (by omega) tsx
      have hx0 : (n' % cols + 1) * tsx = n' % cols * tsx + tsx := by ring
      linarith
  · -- the (n', k') scanline lies in an earlier block
    left
    have h1 : (n' / cols * tsy + k' + 1) * W ≤ (n / cols * tsy + k) * W :=
      mul_le_mul_right' (by omega) W
    have h0 : (n' / cols * tsy + k' + 1) * W = (n' / cols * tsy + k') * W + W := by ring
    exact offset_chain _ _ _ _ _ _ _ h1 h0 hxb2

theorem cell_rows_disjoint_bytes (W ps tsx tsy cols : Nat) (hcols : 0 < cols)
    (hW : cols * tsx ≤ W) (n n' : Nat) (hne : n ≠ n') (k k' : Nat)
    (hk : k < tsy) (hk' : k' < tsy) :
    ((n' / cols * tsy + k') * W + n' % cols * tsx) * ps + tsx * ps ≤
      ((n / cols * tsy + k) * W + n % cols * tsx) * ps ∨
    ((n / cols * tsy + k) * W + n % cols * tsx) * ps + tsx * ps ≤
      ((n' / cols * tsy + k') * W + n' % cols * tsx) * ps := by
  rcases cell_rows_disjoint W tsx tsy cols hcols hW n n' hne k k' hk hk' with key | key
  · left
    have h := mul_le_mul_right' key ps
    rw [Nat.add_mul] at h
    exact h
  · right
    have h := mul_le_mul_right' key ps
    rw [Nat.add_mul] at h
    exact h

theorem div_mod_succ (index cols : Nat) (hc : 0 < cols) :
    ((index + 1) % cols = 0 → (index + 1) / cols = index / cols + 1) ∧
    ((index + 1) % cols ≠ 0 → (index + 1) / cols = index / cols ∧
      (index + 1) % cols = index % cols + 1) := by
  have hmod : (index + 1) % cols = (index % cols + 1) % cols := by
    have e : cols * (index / cols) + index % cols + 1 =
        (index % cols + 1) + index / cols * cols := by ring
    calc (index + 1) % cols
        = (cols * (index / cols) + index % cols + 1) % cols := by
          rw [Nat.div_add_mod]
      _ = ((index % cols + 1) + index / cols * cols) % cols := by rw [e]
      _ = (index % cols + 1) % cols := Nat.add_mul_mod_self_right _ _ _
  have hr : index % cols < cols := Nat.mod_lt _ hc
  constructor
  · intro h0
    have hrc : index % cols + 1 = cols := by
      rcases Nat.lt_or_ge (index % cols + 1) cols with h | h
      · rw [hmod, Nat.mod_eq_of_lt h] at h0
        omega
      · omega
    have e2 : index + 1 = cols * (index / cols + 1) := by
      have e3 := Nat.div_add_mod index cols
      have e4 : cols * (index / cols + 1) = cols * (index / cols) + cols := by ring
      linarith
    rw [e2, Nat.mul_div_cancel_left _ hc]
  · intro h0
    have hrc : index % cols + 1 < cols := by
      rcases Nat.lt_or_ge (index % cols + 1) cols with h | h
      · exact h
      · exfalso
        have he : index % cols + 1 = cols := by omega
        rw [hmod, he, Nat.mod_self] at h0
        exact h0 rfl
    constructor
    · have e2 : index + 1 = (index % cols + 1) + index / cols * cols := by
        have e3 := Nat.div_add_mod index cols
        linarith
      rw [e2, Nat.add_mul_div_right _ _ hc, Nat.div_eq_of_lt hrc, Nat.zero_add]
    · rw [hmod, Nat.mod_eq_of_lt hrc]

theorem le_mul_ceil (total cols : Nat) (hc : 0 < cols) :
    total ≤ cols * ((total + cols - 1) / cols) := by
  have key := Nat.div_add_mod (total + cols - 1) cols
  have hrem : (total + cols - 1) % cols < cols := Nat.mod_lt _ hc
  generalize cols * ((total + cols - 1) / cols) = X at key ⊢
  omega

theorem blit_row_bound (W H ps tsx y x : Nat) (hx : x + tsx ≤ W) (hy : y + 1 ≤ H) :
    (y * W + x) * ps + tsx * ps ≤ W * H * ps := by
  have h1 : y * W + x + tsx ≤ (y + 1) * W := by nlinarith
  have h2 : (y + 1) * W ≤ H * W := mul_le_mul_right' hy W
  have h3 : (y * W + x + tsx) * ps ≤ H * W * ps :=
    mul_le_mul_right' (le_trans h1 h2) ps
  calc (y * W + x) * ps + tsx * ps = (y * W + x + tsx) * ps := by ring
    _ ≤ H * W * ps := h3
    _ = W * H * ps := by ring

theorem tex_row_bound (tsx tsy ps len k : Nat) (h : tsy * (tsx * ps) ≤ len)
    (hk : k < tsy) : k * tsx * ps + tsx * ps ≤ len := by nlinarith

theorem cell_x_bound (tsx cols m : Nat) (hcols : 0 < cols) :
    m % cols * tsx + tsx ≤ cols * tsx := by
  have h := Nat.mod_lt m hcols
  nlinarith

theorem cell_y_bound_abs (A R tsy k : Nat) (hA : A < R) (hk : k < tsy) :
    A * tsy + k + 1 ≤ R * tsy := by
  have h1 : (A + 1) * tsy ≤ R * tsy := mul_le_mul_right' (by omega) tsy
  have h0 : (A + 1) * tsy = A * tsy + tsy := by ring
  linarith

theorem cell_y_bound (tsy R cols index k : Nat) (hcols : 0 < cols)
    (hidx : index < cols * R) (hk : k < tsy) :
    index / cols * tsy + k + 1 ≤ R * tsy := by
  have hdiv : index / cols < R := by
    rw [Nat.div_lt_iff_lt_mul hcols, Nat.mul_comm R cols]
    exact hidx
  exact cell_y_bound_abs (index / cols) R tsy k hdiv hk

/-- One successful iteration of the `finish` loop: processing one tile that
satisfies `TileOk` rewrites the loop on `h :: t` at position `index` into the
loop on `t` at position `index + 1`, with the handle-map, the rectangle list
and the atlas buffer updated as the source does; the blitted (or skipped)
cell and the preservation of every other cell are recorded. -/
theorem finishLoop_cons_good (b : TileAtlasBuilder)
    (convert : Texture → TextureFormat → Option Texture) (store : TextureStore)
    (ts : Vec2) (hts : b.tile_size = some ts) (R : Nat) (h : Handle)
    (t : List Handle) (index : Nat) (hmap : List (Handle × Nat)) (rects : List Rect)
    (atlas : Texture)
    (hcols : 0 < b.get_max_columns)
    (hidx : index < b.get_max_columns * R)
    (hW : atlas.size.width = b.get_max_columns * ts.x)
    (hH : R * ts.y ≤ atlas.size.height)
    (hfmt : atlas.format = b.format)
    (hdlen : atlas.data.length =
      atlas.size.width * atlas.size.height * b.format.pixel_size)
    (htile : TileOk b convert store ts h) :
    ∃ atlas1,
      b.finishLoop convert store ts (h :: t) index (index / b.get_max_columns)
          (index % b.get_max_columns) hmap rects atlas =
        b.finishLoop convert store ts t (index + 1)
          ((index + 1) / b.get_max_columns) ((index + 1) % b.get_max_columns)
          (hashmap_insert hmap h index)
          (rects ++ [gridRect ts b.get_max_columns index]) atlas1 ∧
      atlas1.size = atlas.size ∧ atlas1.format = atlas.format ∧
      atlas1.data.length = atlas.data.length ∧
      (∀ n, n ≠ index →
        readCell atlas1.data atlas.size.width b.format.pixel_size ts
            b.get_max_columns n =
          readCell atlas.data atlas.size.width b.format.pixel_size ts
            b.get_max_columns n) ∧
      (∀ tex, store.get h = some tex →
        (tex.format = b.format →
          readCell atlas1.data atlas.size.width b.format.pixel_size ts
              b.get_max_columns index =
            tex.data.take (ts.y * (ts.x * b.format.pixel_size))) ∧
        (tex.format ≠ b.format →
          readCell atlas1.data atlas.size.width b.format.pixel_size ts
              b.get_max_columns index =
            readCell atlas.data atlas.size.width b.format.pixel_size ts
              b.get_max_columns index)) := by
  obtain ⟨tex, hget, hdisj⟩ := htile
  have hcond : ¬(tex.format ≠ b.format ∧ b.auto_format_conversion = false) := by
    rcases hdisj with ⟨hfm, _⟩ | ⟨_, hauto, _⟩
    · exact fun hc => hc.1 hfm
    · intro hc
      rw [hauto] at hc
      exact absurd hc.2 (by decide)
  have hcolsne : ¬b.get_max_columns = 0 := by omega
  -- the wrap-step rewrite, shared by both format cases
  have hstep : ∀ atlas1 : Texture,
      (if (index + 1) % b.get_max_columns = 0 then
        b.finishLoop convert store ts t (index + 1) (index / b.get_max_columns + 1) 0
          (hashmap_insert hmap h index)
          (rects ++ [gridRect ts b.get_max_columns index]) atlas1
      else
        b.finishLoop convert store ts t (index + 1) (index / b.get_max_columns)
          (index % b.get_max_columns + 1)
          (hashmap_insert hmap h index)
          (rects ++ [gridRect ts b.get_max_columns index]) atlas1) =
      b.finishLoop convert store ts t (index + 1)
        ((index + 1) / b.get_max_columns) ((index + 1) % b.get_max_columns)
        (hashmap_insert hmap h index)
        (rects ++ [gridRect ts b.get_max_columns index]) atlas1 := by
    intro atlas1
    rcases Classical.em ((index + 1) % b.get_max_columns = 0) with h0 | h0
    · rw [if_pos h0, (div_mod_succ index b.get_max_columns hcols).1 h0, h0]
    · obtain ⟨hd, hm⟩ := (div_mod_succ index b.get_max_columns hcols).2 h0
      rw [if_neg h0, hd, hm]
  rcases hdisj with ⟨hfm, hlen2⟩ | ⟨hfm, hauto, hconvnone⟩
  · -- format matches: a real blit happens
    have hxw : index % b.get_max_columns * ts.x + ts.x ≤ atlas.size.width := by
      rw [hW]
      exact cell_x_bound ts.x b.get_max_columns index hcols
    have hb : ∀ k, k < ts.y →
        ((index / b.get_max_columns * ts.y + k) * atlas.size.width +
          index % b.get_max_columns * ts.x) * atlas.format.pixel_size +
          ts.x * atlas.format.pixel_size ≤ atlas.data.length := by
      intro k hk
      rw [hdlen, hW, hfmt]
      rw [hW] at hxw
      exact blit_row_bound (b.get_max_columns * ts.x) atlas.size.height
        b.format.pixel_size ts.x (index / b.get_max_columns * ts.y + k)
        (index % b.get_max_columns * ts.x) hxw
        (le_trans (cell_y_bound ts.y R b.get_max_columns index k hcols hidx hk) hH)
    have htex : ∀ k, k < ts.y →
        k * ts.x * atlas.format.pixel_size + ts.x * atlas.format.pixel_size ≤
          tex.data.length := by
      intro k hk
      rw [hfmt]
      exact tex_row_bound ts.x ts.y b.format.pixel_size tex.data.length k hlen2 hk
    obtain ⟨a1, hcopy, hsz1, hfm1, hln1, hrows, hpres⟩ :=
      copy_texture_to_atlas_spec b atlas tex (index % b.get_max_columns)
        (index / b.get_max_columns) ts hts hxw hb htex
    have hcc : b.copy_converted_texture convert atlas tex
        (index % b.get_max_columns) (index / b.get_max_columns) = some a1 := by
      unfold TileAtlasBuilder.copy_converted_texture
      rw [if_pos hfm.symm]
      exact hcopy
    refine ⟨a1, ?_, by rw [hsz1], by rw [hfm1, hfmt], by rw [hln1], ?_, ?_⟩
    · simp only [TileAtlasBuilder.finishLoop]
      rw [hget]
      dsimp only
      rw [if_neg hcond, hcc]
      dsimp only
      rw [if_neg hcolsne]
      exact hstep a1
    · -- other cells preserved
      intro n hn
      unfold readCell
      apply congrArg
      apply List.map_congr_left
      intro k' hk'
      rw [List.mem_range] at hk'
      apply hpres
      intro k hk
      rw [hfmt]
      rcases cell_rows_disjoint_bytes atlas.size.width b.format.pixel_size ts.x
        ts.y b.get_max_columns hcols (le_of_eq hW.symm) index n hn.symm k k' hk hk'
        with hc | hc
      · left
        exact hc
      · right
        exact hc
    · intro tex' hget'
      rw [hget] at hget'
      injection hget' with htx
      subst htx
      constructor
      · intro _
        unfold readCell
        have h1 : (List.range ts.y).map (fun k =>
            readRange a1.data
              (((index / b.get_max_columns * ts.y + k) * atlas.size.width +
                index % b.get_max_columns * ts.x) * b.format.pixel_size)
              (ts.x * b.format.pixel_size)) =
            (List.range ts.y).map (fun k =>
              readRange tex.data (k * (ts.x * b.format.pixel_size))
                (ts.x * b.format.pixel_size)) := by
          apply List.map_congr_left
          intro k hk
          rw [List.mem_range] at hk
          rw [← hfmt, hrows k hk, Nat.mul_assoc]
        rw [h1, flatten_readRange_chunks tex.data (ts.x * b.format.pixel_size)
          ts.y hlen2]
      · intro hne2
        exact absurd hfm hne2
  · -- format mismatch, conversion fails: the tile is skipped
    have hcc : b.copy_converted_texture convert atlas tex
        (index % b.get_max_columns) (index / b.get_max_columns) = some atlas := by
      unfold TileAtlasBuilder.copy_converted_texture
      rw [if_neg (fun he => hfm he.symm), hconvnone]
    refine ⟨atlas, ?_, rfl, rfl, rfl, fun n _ => rfl, ?_⟩
    · simp only [TileAtlasBuilder.finishLoop]
      rw [hget]
      dsimp only
      rw [if_neg hcond, hcc]
      dsimp only
      rw [if_neg hcolsne]
      exact hstep atlas
    · intro tex' hget'
      rw [hget] at hget'
      injection hget' with htx
      subst htx
      exact ⟨fun hfm2 => absurd hfm2 hfm, fun _ => rfl⟩

theorem range_map_shift {α : Type} (f : Nat → α) (n index : Nat) :
    (List.range (n + 1)).map (fun j => f (index + j)) =
      f index :: (List.range n).map (fun j => f (index + 1 + j)) := by
  rw [List.range_succ_eq_map, List.map_cons, List.map_map]
  simp only [Nat.add_zero]
  congr 1
  apply List.map_congr_left
  intro j _
  simp only [Function.comp_apply]
  congr 1
  omega

/-- Full run of the `finish` loop over tiles that all satisfy `TileOk`: the
loop succeeds, accumulates one handle-map entry and one grid rectangle per
tile, keeps the buffer geometry, and fills each processed cell with the
tile's bytes (format match) or leaves it untouched (skipped conversion);
cells before `index` are never touched. -/
theorem finishLoop_spec (b : TileAtlasBuilder)
    (convert : Texture → TextureFormat → Option Texture) (store : TextureStore)
    (ts : Vec2) (hts : b.tile_size = some ts) (R : Nat) :
    ∀ (hs : List Handle) (index : Nat) (hmap : List (Handle × Nat))
      (rects : List Rect) (atlas : Texture),
      0 < b.get_max_columns →
      index + hs.length ≤ b.get_max_columns * R →
      atlas.size.width = b.get_max_columns * ts.x →
      R * ts.y ≤ atlas.size.height →
      atlas.format = b.format →
      atlas.data.length = atlas.size.width * atlas.size.height * b.format.pixel_size →
      (∀ h ∈ hs, TileOk b convert store ts h) →
      ∃ atlas',
        b.finishLoop convert store ts hs index (index / b.get_max_columns)
            (index % b.get_max_columns) hmap rects atlas =
          .ok (insertAll hmap hs index)
            (rects ++ (List.range hs.length).map
              (fun j => gridRect ts b.get_max_columns (index + j))) atlas' ∧
        atlas'.size = atlas.size ∧ atlas'.format = atlas.format ∧
        atlas'.data.length = atlas.data.length ∧
        (∀ n, n < index →
          readCell atlas'.data atlas.size.width b.format.pixel_size ts
              b.get_max_columns n =
            readCell atlas.data atlas.size.width b.format.pixel_size ts
              b.get_max_columns n) ∧
        (∀ j, (hj : j < hs.length) → ∀ tex,
          store.get (hs.get ⟨j, hj⟩) = some tex →
          (tex.format = b.format →
            readCell atlas'.data atlas.size.width b.format.pixel_size ts
                b.get_max_columns (index + j) =
              tex.data.take (ts.y * (ts.x * b.format.pixel_size))) ∧
          (tex.format ≠ b.format →
            readCell atlas'.data atlas.size.width b.format.pixel_size ts
                b.get_max_columns (index + j) =
              readCell atlas.data atlas.size.width b.format.pixel_size ts
                b.get_max_columns (index + j))) := by
  intro hs
  induction hs with
  | nil =>
    intro index hmap rects atlas hcols _ hW hH hfmt hdlen _
    refine ⟨atlas, ?_, rfl, rfl, rfl, fun n _ => rfl, fun j hj => absurd hj (by simp)⟩
    simp [TileAtlasBuilder.finishLoop, insertAll]
  | cons h t ih =>
    intro index hmap rects atlas hcols hR hW hH hfmt hdlen htiles
    obtain ⟨atlas1, hrw, hsz1, hfm1, hln1, hpres1, hcell1⟩ :=
      finishLoop_cons_good b convert store ts hts R h t index hmap rects atlas
        hcols (by simp at hR; omega) hW hH hfmt hdlen
        (htiles h (List.mem_cons_self h t))
    obtain ⟨atlas', hloop, hsz', hfm', hln', hpres', hcell'⟩ :=
      ih (index + 1) (hashmap_insert hmap h index)
        (rects ++ [gridRect ts b.get_max_columns index]) atlas1 hcols
        (by simp at hR ⊢; omega)
        (by rw [hsz1]; exact hW)
        (by rw [hsz1]; exact hH)
        (by rw [hfm1]; exact hfmt)
        (by rw [hln1, hsz1]; exact hdlen)
        (fun h' hmem => htiles h' (List.mem_cons_of_mem h hmem))
    rw [hsz1] at hpres' hcell'
    refine ⟨atlas', ?_, by rw [hsz', hsz1], by rw [hfm', hfm1],
        by rw [hln', hln1], ?_, ?_⟩
    · rw [hrw, hloop]
      have h2 : rects ++ (List.range (h :: t).length).map
            (fun j => gridRect ts b.get_max_columns (index + j)) =
          rects ++ [gridRect ts b.get_max_columns index] ++
            (List.range t.length).map
              (fun j => gridRect ts b.get_max_columns (index + 1 + j)) := by
        rw [List.length_cons, range_map_shift (fun n => gridRect ts b.get_max_columns n)
          t.length index, List.append_assoc, List.singleton_append]
      rw [h2]
      rfl
    · intro n hn
      rw [hpres' n (by omega), hpres1 n (by omega)]
    · intro j hj tex hget
      rcases j with _ | j
      · -- the head tile: its cell is the one just written
        have hc1 := hcell1 tex (by simpa using hget)
        have hp := hpres' index (by omega)
        simp only [Nat.add_zero]
        constructor
        · intro hfm2
          rw [hp]
          exact (hc1.1 hfm2)
        · intro hfm2
          rw [hp]
          exact (hc1.2 hfm2)
      · -- a later tile: handled by the induction hypothesis
        have hj' : j < t.length := by simpa using hj
        have hc := hcell' j hj' tex (by simpa using hget)
        have he : index + 1 + j = index + (j + 1) := by omega
        rw [he] at hc
        constructor
        · exact hc.1
        · intro hfm2
          rw [hc.2 hfm2, hpres1 (index + (j + 1)) (by omega)]

/-- Whenever the `finish` loop returns `ok` — on any path through it, with
the row/column trackers in their invariant position — the resulting
rectangle list is the input list extended with the row-major grid rectangle
of every processed position, and the map is the fold of the per-tile
insertions. -/
theorem finishLoop_ok_shape (b : TileAtlasBuilder)
    (convert : Texture → TextureFormat → Option Texture) (store : TextureStore)
    (ts : Vec2) :
    ∀ (hs : List Handle) (index row col : Nat) (hmap : List (Handle × Nat))
      (rects : List Rect) (atlas : Texture) (hmap' : List (Handle × Nat))
      (rects' : List Rect) (atlas' : Texture),
      row = index / b.get_max_columns →
      col = index % b.get_max_columns →
      b.finishLoop convert store ts hs index row col hmap rects atlas =
        .ok hmap' rects' atlas' →
      rects' = rects ++ (List.range hs.length).map
        (fun j => gridRect ts b.get_max_columns (index + j)) ∧
      hmap' = insertAll hmap hs index := by
  intro hs
  induction hs with
  | nil =>
    intro index row col hmap rects atlas hmap' rects' atlas' _ _ hok
    simp only [TileAtlasBuilder.finishLoop, LoopResult.ok.injEq] at hok
    obtain ⟨h1, h2, _⟩ := hok
    subst h1
    subst h2
    exact ⟨by simp, rfl⟩
  | cons hh t ih =>
    intro index row col hmap rects atlas hmap' rects' atlas' hrow hcol hok
    subst hrow
    subst hcol
    simp only [TileAtlasBuilder.finishLoop] at hok
    cases hg : store.get hh with
    | none =>
      rw [hg] at hok
      exact absurd hok (by simp)
    | some tex =>
      rw [hg] at hok
      dsimp only at hok
      by_cases hc : tex.format ≠ b.format ∧ b.auto_format_conversion = false
      · rw [if_pos hc] at hok
        exact absurd hok (by simp)
      · rw [if_neg hc] at hok
        cases hcp : b.copy_converted_texture convert atlas tex
            (index % b.get_max_columns) (index / b.get_max_columns) with
        | none =>
          rw [hcp] at hok
          exact absurd hok (by simp)
        | some a1 =>
          rw [hcp] at hok
          dsimp only at hok
          by_cases hc0 : b.get_max_columns = 0
          · rw [if_pos hc0] at hok
            exact absurd hok (by simp)
          · rw [if_neg hc0] at hok
            have hcols : 0 < b.get_max_columns := Nat.pos_of_ne_zero hc0
            by_cases hw : (index + 1) % b.get_max_columns = 0
            · rw [if_pos hw] at hok
              obtain ⟨hl, hm⟩ := ih (index + 1)
                (index / b.get_max_columns + 1) 0 (hashmap_insert hmap hh index)
                (rects ++ [⟨⟨index % b.get_max_columns * ts.x,
                    index / b.get_max_columns * ts.y⟩,
                  ⟨index % b.get_max_columns * ts.x + ts.x,
                    index / b.get_max_columns * ts.y + ts.y⟩⟩]) a1 hmap' rects' atlas'
                ((div_mod_succ index b.get_max_columns hcols).1 hw).symm hw.symm hok
              refine ⟨?_, hm⟩
              rw [hl, List.length_cons,
                range_map_shift (fun n => gridRect ts b.get_max_columns n)
                  t.length index,
                List.append_assoc, List.singleton_append]
              rfl
            · rw [if_neg hw] at hok
              obtain ⟨hd, hm0⟩ := (div_mod_succ index b.get_max_columns hcols).2 hw
              obtain ⟨hl, hm⟩ := ih (index + 1)
                (index / b.get_max_columns) (index % b.get_max_columns + 1)
                (hashmap_insert hmap hh index)
                (rects ++ [⟨⟨index % b.get_max_columns * ts.x,
                    index / b.get_max_columns * ts.y⟩,
                  ⟨index % b.get_max_columns * ts.x + ts.x,
                    index / b.get_max_columns * ts.y + ts.y⟩⟩]) a1 hmap' rects' atlas'
                hd.symm hm0.symm hok
              refine ⟨?_, hm⟩
              rw [hl, List.length_cons,
                range_map_shift (fun n => gridRect ts b.get_max_columns n)
                  t.length index,
                List.append_assoc, List.singleton_append]
              rfl

/-! ### Handle-map lemmas -/

theorem find_insert_self (m : List (Handle × Nat)) (a : Handle) (v : Nat)
    (hmem : m.any (fun p => p.fst == a) = true) :
    (m.map (fun p => if p.fst == a then (a, v) else p)).find?
      (fun p => p.fst == a) = some (a, v) := by
  induction m with
  | nil => simp at hmem
  | cons p t ih =>
    simp only [List.map_cons, List.find?_cons]
    by_cases hpa : p.fst == a
    · rw [if_pos hpa]
      simp
    · rw [if_neg hpa]
      have : (p.fst == a) = false := by simpa using hpa
      rw [this]
      dsimp only
      apply ih
      simp only [List.any_cons, this, Bool.false_or] at hmem
      exact hmem

theorem hashmap_get_insert_self (m : List (Handle × Nat)) (a : Handle) (v : Nat) :
    hashmap_get (hashmap_insert m a v) a = some v := by
  unfold hashmap_insert hashmap_get
  by_cases hmem : m.any (fun p => p.fst == a) = true
  · rw [if_pos hmem, find_insert_self m a v hmem]
    rfl
  · rw [if_neg hmem]
    have hnone : m.find? (fun p => p.fst == a) = none := by
      rw [List.find?_eq_none]
      intro p hp
      intro hpa
      exact hmem (List.any_of_mem hp hpa)
    rw [List.find?_append, hnone]
    simp

theorem hashmap_get_insert_ne (m : List (Handle × Nat)) (a k : Handle) (v : Nat)
    (hne : a ≠ k) :
    hashmap_get (hashmap_insert m a v) k = hashmap_get m k := by
  unfold hashmap_insert hashmap_get
  by_cases hmem : m.any (fun p => p.fst == a) = true
  · rw [if_pos hmem]
    clear hmem
    induction m with
    | nil => rfl
    | cons p t ih =>
      simp only [List.map_cons, List.find?_cons]
      by_cases hpa : p.fst == a
      · rw [if_pos hpa]
        have h1 : (a == k) = false := by simpa using hne
        have h2 : (p.fst == k) = false := by
          have : p.fst = a := by simpa using hpa
          simpa [this] using hne
        rw [h1, h2]
        exact ih
      · rw [if_neg hpa]
        cases hpk : (p.fst == k) with
        | true => rfl
        | false => exact ih
  · rw [if_neg hmem, List.find?_append]
    have h1 : ((fun p => p.fst == k) (a, v)) = false := by simpa using hne
    cases hfk : m.find? (fun p => p.fst == k) with
    | some q => simp
    | none => simp [h1]

theorem hashmap_insert_length_fresh (m : List (Handle × Nat)) (a : Handle) (v : Nat)
    (hmem : m.any (fun p => p.fst == a) = false) :
    (hashmap_insert m a v).length = m.length + 1 := by
  unfold hashmap_insert
  rw [if_neg (by simp [hmem])]
  simp

theorem hashmap_insert_any_fresh (m : List (Handle × Nat)) (a q : Handle) (v : Nat)
    (hmem : m.any (fun p => p.fst == a) = false)
    (hq : m.any (fun p => p.fst == q) = false) (hne : a ≠ q) :
    (hashmap_insert m a v).any (fun p => p.fst == q) = false := by
  unfold hashmap_insert
  rw [if_neg (by simp [hmem])]
  simp only [List.any_append, List.any_cons, List.any_nil, Bool.or_false]
  rw [hq]
  simpa using hne

theorem insertAll_get_untouched (hs : List Handle) :
    ∀ (m : List (Handle × Nat)) (i : Nat) (k : Handle), (∀ q ∈ hs, q ≠ k) →
      hashmap_get (insertAll m hs i) k = hashmap_get m k := by
  induction hs with
  | nil => intro m i k _; rfl
  | cons hh t ih =>
    intro m i k hk
    unfold insertAll
    rw [ih (hashmap_insert m hh i) (i + 1) k (fun q hq => hk q (List.mem_cons_of_mem hh hq))]
    exact hashmap_get_insert_ne m hh k i (hk hh (List.mem_cons_self hh t))

theorem insertAll_get_self (hs : List Handle) :
    ∀ (m : List (Handle × Nat)) (i : Nat), hs.Nodup →
      ∀ j, (hj : j < hs.length) →
        hashmap_get (insertAll m hs i) (hs.get ⟨j, hj⟩) = some (i + j) := by
  induction hs with
  | nil => intro m i _ j hj; exact absurd hj (by simp)
  | cons hh t ih =>
    intro m i hnd j hj
    rcases j with _ | j
    · simp only [List.get]
      unfold insertAll
      rw [insertAll_get_untouched t (hashmap_insert m hh i) (i + 1) hh
        (fun q hq hqh => (List.nodup_cons.mp hnd).1 (hqh ▸ hq))]
      simpa using hashmap_get_insert_self m hh i
    · simp only [List.get]
      unfold insertAll
      have := ih (hashmap_insert m hh i) (i + 1) (List.nodup_cons.mp hnd).2 j
        (by simpa using hj)
      rw [this]
      congr 1
      omega

theorem insertAll_length_fresh (hs : List Handle) :
    ∀ (m : List (Handle × Nat)) (i : Nat), hs.Nodup →
      (∀ q ∈ hs, m.any (fun p => p.fst == q) = false) →
      (insertAll m hs i).length = m.length + hs.length := by
  induction hs with
  | nil => intro m i _ _; simp [insertAll]
  | cons hh t ih =>
    intro m i hnd hfresh
    unfold insertAll
    rw [ih (hashmap_insert m hh i) (i + 1) (List.nodup_cons.mp hnd).2 ?fresh]
    · rw [hashmap_insert_length_fresh m hh i (hfresh hh (List.mem_cons_self hh t))]
      simp only [List.length_cons]
      omega
    case fresh =>
      intro q hq
      exact hashmap_insert_any_fresh m hh q i (hfresh hh (List.mem_cons_self hh t))
        (hfresh q (List.mem_cons_of_mem hh hq))
        (fun he => (List.nodup_cons.mp hnd).1 (he ▸ hq))

/-! ### `add_texture` accumulation -/

theorem add_all_spec (tiles : List (Handle × Texture)) :
    ∀ b : TileAtlasBuilder,
      (∀ r ∈ (add_all b tiles).2, ∃ nn, r = Except.ok nn) →
      (add_all b tiles).1.handles = b.handles ++ tiles.map Prod.fst ∧
      (add_all b tiles).2 = (List.range tiles.length).map
        (fun j => Except.ok (b.handles.length + j)) := by
  induction tiles with
  | nil => intro b _; simp [add_all]
  | cons p rest ih =>
    intro b hok
    obtain ⟨hh, tx⟩ := p
    obtain ⟨nn, hnn⟩ := hok (b.add_texture hh tx).2 (by simp [add_all])
    have hstep : (b.add_texture hh tx).1.handles = b.handles ++ [hh] ∧
        (b.add_texture hh tx).2 = Except.ok b.handles.length := by
      unfold TileAtlasBuilder.add_texture at hnn ⊢
      cases hts : b.tile_size with
      | none =>
        simp
      | some size =>
        rw [hts] at hnn
        dsimp only at hnn ⊢
        split at hnn
        · exact absurd hnn (by simp)
        · rename_i hcond
          rw [if_neg hcond]
          simp
    obtain ⟨hh1, hh2⟩ := hstep
    have hrest := ih (b.add_texture hh tx).1 (fun r hr => hok r (by
      simp only [add_all, List.mem_cons]
      right
      exact hr))
    constructor
    · simp only [add_all]
      rw [hrest.1, hh1]
      simp
    · simp only [add_all]
      rw [hrest.2, hh1, hh2, List.length_cons,
        range_map_shift (fun nn => Except.ok nn) rest.length b.handles.length]
      simp [List.length_append]

/-! ### Zero-filled buffer lemmas and the top-level `finish` specification -/

theorem new_fill_zero_data (size : Extent3d) (dim : TextureDimension)
    (fmt : TextureFormat) :
    (Texture.new_fill size dim [0, 0, 0, 0] fmt).data =
      List.replicate (size.width * size.height * size.depth * fmt.pixel_size) 0 := by
  unfold Texture.new_fill
  dsimp only
  refine List.eq_replicate_iff.mpr ⟨by simp, ?_⟩
  intro bb hbb
  rw [List.mem_map] at hbb
  obtain ⟨i, _, hi⟩ := hbb
  have h4 : i % ([0, 0, 0, 0] : List Nat).length < 4 := Nat.mod_lt _ (by norm_num)
  have hz : ∀ r, r < 4 → ([0, 0, 0, 0] : List Nat).getD r 0 = 0 := by decide
  rw [← hi]
  exact hz _ h4

theorem readCell_of_zero_fill (L W ps : Nat) (ts : Vec2) (cols n : Nat)
    (hbound : ∀ k, k < ts.y →
      ((n / cols * ts.y + k) * W + n % cols * ts.x) * ps + ts.x * ps ≤ L) :
    readCell (List.replicate L 0) W ps ts cols n =
      List.replicate (ts.y * (ts.x * ps)) 0 := by
  unfold readCell
  have h1 : (List.range ts.y).map (fun k =>
      readRange (List.replicate L 0)
        (((n / cols * ts.y + k) * W + n % cols * ts.x) * ps) (ts.x * ps)) =
      (List.range ts.y).map (fun _ => List.replicate (ts.x * ps) 0) := by
    apply List.map_congr_left
    intro k hk
    rw [List.mem_range] at hk
    exact readRange_replicate (hbound k hk)
  rw [h1, flatten_replicate_chunks]

theorem u32sat_of_lt {n : Nat} (h : n < 2 ^ 32) : u32sat n = n := by
  unfold u32sat
  omega

/-- Top-level specification of a successful `finish`: with a positive column
count, in-range buffer dimensions and every tile either blit-ready or on the
skip path, `finish` returns the atlas descriptor with the grid geometry, the
insertion-ordered rectangles, the handle-to-index map, and stores a composed
buffer whose cells hold the tiles' bytes (or zero fill for skipped tiles). -/
theorem finish_spec (b : TileAtlasBuilder)
    (convert : Texture → TextureFormat → Option Texture) (store : TextureStore)
    (ts : Vec2) (hts : b.tile_size = some ts)
    (hne : b.handles.length ≠ 0)
    (hcols : 0 < b.get_max_columns)
    (hWlt : b.get_max_columns * ts.x < 2 ^ 32)
    (hHlt : (b.handles.length + b.get_max_columns - 1) / b.get_max_columns * ts.y
      < 2 ^ 32)
    (htiles : ∀ h ∈ b.handles, TileOk b convert store ts h) :
    ∃ composed store',
      b.finish convert store = .ok
        { size := ⟨b.get_max_columns * ts.x,
            (b.handles.length + b.get_max_columns - 1) / b.get_max_columns * ts.y⟩,
          texture := store.next_handle,
          textures := (List.range b.handles.length).map
            (fun j => gridRect ts b.get_max_columns j),
          texture_handles := insertAll [] b.handles 0 } store' ∧
      store'.get store.next_handle = some composed ∧
      composed.format = b.format ∧
      composed.size.width = b.get_max_columns * ts.x ∧
      composed.size.height =
        (b.handles.length + b.get_max_columns - 1) / b.get_max_columns * ts.y ∧
      composed.data.length =
        composed.size.width * composed.size.height * b.format.pixel_size ∧
      (∀ j, (hj : j < b.handles.length) → ∀ tex,
        store.get (b.handles.get ⟨j, hj⟩) = some tex →
        (tex.format = b.format →
          readCell composed.data composed.size.width b.format.pixel_size ts
              b.get_max_columns j =
            tex.data.take (ts.y * (ts.x * b.format.pixel_size))) ∧
        (tex.format ≠ b.format →
          readCell composed.data composed.size.width b.format.pixel_size ts
              b.get_max_columns j =
            List.replicate (ts.y * (ts.x * b.format.pixel_size)) 0)) := by
  have hcolsne : ¬b.get_max_columns = 0 := by omega
  have hA0 := new_fill_zero_data
    ⟨u32sat (b.get_max_columns * ts.x),
      u32sat ((b.handles.length + b.get_max_columns - 1) / b.get_max_columns * ts.y),
      1⟩ .D2 b.format
  have hAW : (Texture.new_fill
      ⟨u32sat (b.get_max_columns * ts.x),
        u32sat ((b.handles.length + b.get_max_columns - 1) / b.get_max_columns * ts.y),
        1⟩ .D2 [0, 0, 0, 0] b.format).size.width = b.get_max_columns * ts.x :=
    u32sat_of_lt hWlt
  have hAH : (Texture.new_fill
      ⟨u32sat (b.get_max_columns * ts.x),
        u32sat ((b.handles.length + b.get_max_columns - 1) / b.get_max_columns * ts.y),
        1⟩ .D2 [0, 0, 0, 0] b.format).size.height =
      (b.handles.length + b.get_max_columns - 1) / b.get_max_columns * ts.y :=
    u32sat_of_lt hHlt
  have hAfmt : (Texture.new_fill
      ⟨u32sat (b.get_max_columns * ts.x),
        u32sat ((b.handles.length + b.get_max_columns - 1) / b.get_max_columns * ts.y),
        1⟩ .D2 [0, 0, 0, 0] b.format).format = b.format := rfl
  have hAlen : (Texture.new_fill
      ⟨u32sat (b.get_max_columns * ts.x),
        u32sat ((b.handles.length + b.get_max_columns - 1) / b.get_max_columns * ts.y),
        1⟩ .D2 [0, 0, 0, 0] b.format).data.length =
      (b.get_max_columns * ts.x) *
        ((b.handles.length + b.get_max_columns - 1) / b.get_max_columns * ts.y) *
        b.format.pixel_size := by
    rw [hA0]
    simp only [List.length_replicate]
    rw [u32sat_of_lt hWlt, u32sat_of_lt hHlt]
    ring
  obtain ⟨atlas', hloop, hsz', hfm', hln', _, hcell'⟩ :=
    finishLoop_spec b convert store ts hts
      ((b.handles.length + b.get_max_columns - 1) / b.get_max_columns)
      b.handles 0 [] []
      (Texture.new_fill
        ⟨u32sat (b.get_max_columns * ts.x),
          u32sat ((b.handles.length + b.get_max_columns - 1) / b.get_max_columns * ts.y),
          1⟩ .D2 [0, 0, 0, 0] b.format)
      hcols
      (by
        simpa using le_mul_ceil b.handles.length b.get_max_columns hcols)
      hAW
      (le_of_eq hAH.symm)
      hAfmt
      (by rw [hAlen, hAW, hAH])
      htiles
  rw [Nat.zero_div, Nat.zero_mod] at hloop
  have hw2 : atlas'.size.width = b.get_max_columns * ts.x := by rw [hsz']; exact hAW
  have hh2 : atlas'.size.height = (b.handles.length + b.get_max_columns - 1) /
      b.get_max_columns * ts.y := by rw [hsz']; exact hAH
  refine ⟨atlas', (store.add atlas').1, ?_, ?_, by rw [hfm']; exact hAfmt,
    hw2, hh2, ?_, ?_⟩
  · unfold TileAtlasBuilder.finish
    rw [if_neg hne, hts]
    dsimp only
    rw [if_neg hcolsne, hloop]
    dsimp only
    rw [hw2, hh2]
    simp only [List.nil_append, Nat.zero_add]
    rfl
  · unfold TextureStore.add TextureStore.get
    simp
  · rw [hln', hAlen, hw2, hh2]
  · intro j hj tex hget
    have hc := hcell' j hj tex hget
    simp only [Nat.zero_add] at hc
    rw [hAW] at hc
    rw [hw2]
    refine ⟨hc.1, fun hfm2 => ?_⟩
    rw [hc.2 hfm2, hA0]
    dsimp only
    rw [u32sat_of_lt hWlt, u32sat_of_lt hHlt, Nat.mul_one]
    apply readCell_of_zero_fill
    intro k hk
    apply blit_row_bound
    · exact cell_x_bound ts.x b.get_max_columns j hcols
    · exact cell_y_bound ts.y
        ((b.handles.length + b.get_max_columns - 1) / b.get_max_columns)
        b.get_max_columns j k hcols
        (by
          have := le_mul_ceil b.handles.length b.get_max_columns hcols
          omega) hk

/-- Inversion of a successful `finish` (no hypotheses on the tiles): the
descriptor's rectangle list has one entry per handle and its map is the fold
of the per-tile insertions. -/
theorem finish_ok_shape (b : TileAtlasBuilder)
    (convert : Texture → TextureFormat → Option Texture) (store : TextureStore)
    (atlas : TextureAtlas) (st' : TextureStore)
    (hfin : b.finish convert store = .ok atlas st') :
    atlas.textures.length = b.handles.length ∧
    atlas.texture_handles = insertAll [] b.handles 0 ∧
    ∃ ts, b.tile_size = some ts ∧
      atlas.textures = (List.range b.handles.length).map
        (fun j => gridRect ts b.get_max_columns j) := by
  unfold TileAtlasBuilder.finish at hfin
  by_cases htot : b.handles.length = 0
  · rw [if_pos htot] at hfin
    exact absurd hfin (by simp)
  · rw [if_neg htot] at hfin
    cases hts : b.tile_size with
    | none =>
      rw [hts] at hfin
      simp at hfin
    | some ts =>
      rw [hts] at hfin
      dsimp only at hfin
      revert hfin
      generalize Texture.new_fill
        ⟨u32sat (b.get_max_columns * ts.x),
          u32sat ((if b.get_max_columns = 0 then usizeMax
            else (b.handles.length + b.get_max_columns - 1) / b.get_max_columns) * ts.y),
          1⟩ TextureDimension.D2 [0, 0, 0, 0] b.format = A0
      intro hfin
      cases hloop : b.finishLoop convert store ts b.handles 0 0 0 [] [] A0 with
      | panic =>
        rw [hloop] at hfin
        simp at hfin
      | err e =>
        rw [hloop] at hfin
        simp at hfin
      | ok hm rcs at2 =>
        rw [hloop] at hfin
        dsimp only at hfin
        rw [FinishResult.ok.injEq] at hfin
        obtain ⟨ha, _⟩ := hfin
        subst ha
        obtain ⟨hl, hm2⟩ := finishLoop_ok_shape b convert store ts b.handles
          0 0 0 [] [] A0 hm rcs at2 (Nat.zero_div _).symm (Nat.zero_mod _).symm
          hloop
        simp only [List.nil_append, Nat.zero_add] at hl
        refine ⟨?_, hm2, ts, rfl, hl⟩
        rw [hl]
        simp

/-- If every tile before position `index + hs1.length` is processable and the
tile right after the prefix has a mismatched format while auto-conversion is
disabled, the loop aborts with the internal format-mismatch error. -/
theorem finishLoop_err_at (b : TileAtlasBuilder)
    (convert : Texture → TextureFormat → Option Texture) (store : TextureStore)
    (ts : Vec2) (hts : b.tile_size = some ts) (R : Nat) :
    ∀ (hs1 : List Handle) (hk : Handle) (hs2 : List Handle) (index : Nat)
      (hmap : List (Handle × Nat)) (rects : List Rect) (atlas : Texture),
      0 < b.get_max_columns →
      index + hs1.length ≤ b.get_max_columns * R →
      atlas.size.width = b.get_max_columns * ts.x →
      R * ts.y ≤ atlas.size.height →
      atlas.format = b.format →
      atlas.data.length = atlas.size.width * atlas.size.height * b.format.pixel_size →
      (∀ h ∈ hs1, TileOk b convert store ts h) →
      b.auto_format_conversion = false →
      (∃ texk, store.get hk = some texk ∧ texk.format ≠ b.format) →
      b.finishLoop convert store ts (hs1 ++ hk :: hs2) index
        (index / b.get_max_columns) (index % b.get_max_columns) hmap rects atlas =
        .err (.Internal .WrongFormat) := by
  intro hs1
  induction hs1 with
  | nil =>
    intro hk hs2 index hmap rects atlas _ _ _ _ _ _ _ hauto hkmis
    obtain ⟨texk, hget, hmis⟩ := hkmis
    simp only [List.nil_append, TileAtlasBuilder.finishLoop]
    rw [hget]
    dsimp only
    rw [if_pos ⟨hmis, hauto⟩]
  | cons h t ih =>
    intro hk hs2 index hmap rects atlas hcols hR hW hH hfmt hdlen htiles hauto hkmis
    obtain ⟨atlas1, hrw, hsz1, hfm1, hln1, _, _⟩ :=
      finishLoop_cons_good b convert store ts hts R h (t ++ hk :: hs2) index
        hmap rects atlas hcols (by simp at hR; omega) hW hH hfmt hdlen
        (htiles h (List.mem_cons_self h t))
    rw [List.cons_append] at *
    rw [hrw]
    exact ih hk hs2 (index + 1) (hashmap_insert hmap h index)
      (rects ++ [gridRect ts b.get_max_columns index]) atlas1 hcols
      (by simp at hR ⊢; omega)
      (by rw [hsz1]; exact hW)
      (by rw [hsz1]; exact hH)
      (by rw [hfm1]; exact hfmt)
      (by rw [hln1, hsz1]; exact hdlen)
      (fun h' hmem => htiles h' (List.mem_cons_of_mem h hmem))
      hauto hkmis

theorem length_flatten_replicate {α : Type} (m : Nat) (l : List α) :
    (List.replicate m l).flatten.length = m * l.length := by
  induction m with
  | zero => simp
  | succ n ih =>
    rw [List.replicate_succ, List.flatten_cons, List.length_append, ih]
    ring

/-- **C3.** On a builder with no tile size set (and no tiles yet),
`add_texture` with a first tile of dimensions `(w, h)` succeeds with index 0
and fixes the tile size to `(w, h)`; a subsequent `add_texture` with a
`(w+1, h)` tile fails with `InvalidTileSize { expected := (w, h), found :=
(w+1, h) }`, the tile is not appended, and the builder is otherwise entirely
unchanged. -/
theorem C3_tile_size_auto_detection (b : TileAtlasBuilder) (h1 h2 : Handle)
    (t1 t2 : Texture) (w h : Nat)
    (hnone : b.tile_size = none) (hempty : b.handles = [])
    (hw1 : t1.size.width = w) (hh1 : t1.size.height = h)
    (hw2 : t2.size.width = w + 1) (hh2 : t2.size.height = h) :
    (b.add_texture h1 t1).2 = .ok 0 ∧
    (b.add_texture h1 t1).1.tile_size = some ⟨w, h⟩ ∧
    (b.add_texture h1 t1).1.add_texture h2 t2 =
      ((b.add_texture h1 t1).1, .error (.InvalidTileSize ⟨w, h⟩ ⟨w + 1, h⟩)) := by
  simp [TileAtlasBuilder.add_texture, hnone, hempty, hw1, hh1, hw2, hh2]

/-- Witness for C3 at `w = h = 1`. -/
theorem C3_tile_size_auto_detection_witness :
    (TileAtlasBuilder.default.add_texture 7
        (mkTexture 1 1 .Rgba8UnormSrgb [1, 2, 3, 4])).2 = .ok 0 ∧
    (TileAtlasBuilder.default.add_texture 7
        (mkTexture 1 1 .Rgba8UnormSrgb [1, 2, 3, 4])).1.tile_size = some ⟨1, 1⟩ ∧
    (TileAtlasBuilder.default.add_texture 7
        (mkTexture 1 1 .Rgba8UnormSrgb [1, 2, 3, 4])).1.add_texture 8
        (mkTexture 2 1 .Rgba8UnormSrgb [1, 2, 3, 4, 5, 6, 7, 8]) =
      ((TileAtlasBuilder.default.add_texture 7
        (mkTexture 1 1 .Rgba8UnormSrgb [1, 2, 3, 4])).1,
        .error (.InvalidTileSize ⟨1, 1⟩ ⟨2, 1⟩)) :=
  C3_tile_size_auto_detection TileAtlasBuilder.default 7 8 _ _ 1 1
    rfl rfl rfl rfl rfl rfl

/-- **C8.** `finish` on a builder with zero tiles fails with `EmptyAtlas`; no
buffer is allocated and the image store is returned unchanged. -/
theorem C8_empty_build_fails (b : TileAtlasBuilder)
    (convert : Texture → TextureFormat → Option Texture) (textures : TextureStore)
    (hlen : b.len = 0) :
    b.finish convert textures = .err .EmptyAtlas textures := by
  have hh : b.handles.length = 0 := hlen
  simp [TileAtlasBuilder.finish, hh]

/-- Witness for C8 on the default builder and an empty store. -/
theorem C8_empty_build_fails_witness :
    TileAtlasBuilder.default.len = 0 ∧
    TileAtlasBuilder.default.finish convNone ⟨[], 0⟩ = .err .EmptyAtlas ⟨[], 0⟩ :=
  ⟨rfl, C8_empty_build_fails _ _ _ rfl⟩

/-- **C9.** Calling the tile-size setter on a builder with at least one added
tile leaves the builder with `len() == 0`: all previously added tiles are
discarded. -/
theorem C9_size_change_clears_tiles (b : TileAtlasBuilder) (size : Option Vec2)
    (_hfilled : 0 < b.len) :
    (b.set_tile_size size).len = 0 ∧ (b.set_tile_size size).handles = [] :=
  ⟨rfl, rfl⟩

/-- Witness for C9 on a builder holding one tile. -/
theorem C9_size_change_clears_tiles_witness :
    0 < ((TileAtlasBuilder.new ⟨1, 1⟩).add_texture 0 matchingTile).1.len ∧
    ((((TileAtlasBuilder.new ⟨1, 1⟩).add_texture 0 matchingTile).1.set_tile_size
        (some ⟨2, 2⟩)).len = 0 ∧
      (((TileAtlasBuilder.new ⟨1, 1⟩).add_texture 0 matchingTile).1.set_tile_size
        (some ⟨2, 2⟩)).handles = []) :=
  ⟨by decide, C9_size_change_clears_tiles _ _ (by decide)⟩

/-- **C4** (code bug): `add_texture` accepts a tile strictly smaller than the
tile size, but `finish`'s blit then slices the tile's byte buffer at offsets
computed from the *tile-size* width and height (`rect_width`, `rect_height`),
reads past the end of the smaller tile's own data, and panics — instead of
copying only the tile's own pixels and leaving a zero-filled border. -/
theorem C4_smaller_tile_blit_panics :
    ((TileAtlasBuilder.new ⟨2, 2⟩).add_texture 0 smallTile).2 = .ok 0 ∧
    bSmall.finish convNone storeSmall = .panic :=
  ⟨rfl, rfl⟩

/-- **C1** counterexample: two tiles added successfully under the *same*
handle `5`; the handle-to-index map of the finished atlas has 1 entry, not 2,
and the shared handle is mapped to index 1 — the map does not assign index
`i` to the `i`-th tile for `i = 0`. -/
theorem C1_counterexample_duplicate_handle :
    (add_all (TileAtlasBuilder.new ⟨1, 1⟩) dupTiles).2 = [.ok 0, .ok 1] ∧
    (bDup.finish convNone dupStore).handlesLen = some 1 ∧
    (bDup.finish convNone dupStore).lookupIdx 5 = some 1 :=
  ⟨rfl, rfl, rfl⟩

/-- **C10** counterexample: with `max_columns = Some(0)`, one added tile
whose format differs from the target and auto-conversion disabled, `finish`
*returns an error* (`Internal(WrongFormat)`) rather than panicking — the
format check precedes the blit and the wrap step. -/
theorem C10_counterexample_format_error_first :
    bZeroColsStrict.max_columns = some 0 ∧
    bZeroColsStrict.len = 1 ∧
    bZeroColsStrict.finish convNone storeZeroColsStrict =
      .err (.Internal .WrongFormat) storeZeroColsStrict :=
  ⟨rfl, rfl, rfl⟩

/-- The per-tile loop panics on a nonempty tile list when the effective
column count is zero, unless the head tile triggers the format-mismatch
error first. -/
theorem finishLoop_zero_cols (b : TileAtlasBuilder)
    (convert : Texture → TextureFormat → Option Texture) (store : TextureStore)
    (ts : Vec2) (h : Handle) (rest : List Handle) (index row col : Nat)
    (hmap : List (Handle × Nat)) (rects : List Rect) (atlas : Texture)
    (hmc : b.get_max_columns = 0)
    (hfirst : ∀ tex, store.get h = some tex →
      tex.format = b.format ∨ b.auto_format_conversion = true) :
    b.finishLoop convert store ts (h :: rest) index row col hmap rects atlas = .panic := by
  simp only [TileAtlasBuilder.finishLoop]
  cases hget : store.get h with
  | none => rfl
  | some tex =>
    dsimp only
    have hfmt := hfirst tex hget
    have hcond : ¬(tex.format ≠ b.format ∧ b.auto_format_conversion = false) := by
      rcases hfmt with hfmt | hfmt
      · exact fun hc => hc.1 hfmt
      · intro hc
        rw [hfmt] at hc
        exact absurd hc.2 (by decide)
    rw [if_neg hcond]
    cases b.copy_converted_texture convert atlas tex col row with
    | none => rfl
    | some a =>
      dsimp only
      rw [if_pos hmc]

/-- **C10** (amended): with `max_columns = Some(0)` and at least one added
tile, `finish` panics — provided the first tile does not instead trigger the
format-mismatch error (its format matches the target, or auto-conversion is
enabled); a positive column count is necessary for `finish`'s totality. -/
theorem C10_zero_columns_panics (b : TileAtlasBuilder)
    (convert : Texture → TextureFormat → Option Texture) (store : TextureStore)
    (hcols : b.max_columns = some 0) (hne : b.handles ≠ [])
    (hfirst : ∀ tex, store.get b.handles.headI = some tex →
      tex.format = b.format ∨ b.auto_format_conversion = true) :
    b.finish convert store = .panic := by
  obtain ⟨h, rest, hh⟩ : ∃ h rest, b.handles = h :: rest := by
    cases hb : b.handles with
    | nil => exact absurd hb hne
    | cons h rest => exact ⟨h, rest, rfl⟩
  have hmc : b.get_max_columns = 0 := by
    simp [TileAtlasBuilder.get_max_columns, hcols]
  rw [hh, List.headI] at hfirst
  unfold TileAtlasBuilder.finish
  rw [hh]
  rw [if_neg (by simp)]
  cases hts : b.tile_size with
  | none => rfl
  | some ts =>
    dsimp only
    rw [finishLoop_zero_cols b convert store ts h rest 0 0 0 [] [] _ hmc hfirst]

/-- Witness for the amended C10 on a one-tile builder with matching format. -/
theorem C10_zero_columns_panics_witness :
    bZeroCols.max_columns = some 0 ∧ bZeroCols.handles ≠ [] ∧
    bZeroCols.finish convNone storeZeroCols = .panic :=
  ⟨rfl, by decide,
    C10_zero_columns_panics _ _ _ rfl (by decide) (fun _ _ => Or.inr rfl)⟩

/-- **C1** (amended): for every sequence of N tiles successfully added via
`add_texture` to a fresh builder, *whose handles are pairwise distinct*,
`add_texture` returns index `i` for the i-th tile, and whenever `finish`
returns an atlas, its rectangle list and its reference-to-index map both
have exactly N entries, the rectangle list assigns the i-th grid rectangle
(in row-major insertion order) to index `i`, and the map sends the i-th
tile's handle to `i`.  (Without distinctness a duplicated handle collapses
its map entries — see the counterexample.) -/
theorem C1_order_preservation (b0 : TileAtlasBuilder)
    (tiles : List (Handle × Texture))
    (convert : Texture → TextureFormat → Option Texture)
    (store st' : TextureStore) (atlas : TextureAtlas)
    (h0 : b0.handles = [])
    (hok : ∀ r ∈ (add_all b0 tiles).2, ∃ nn, r = Except.ok nn)
    (hdist : (tiles.map Prod.fst).Nodup)
    (hfin : (add_all b0 tiles).1.finish convert store = .ok atlas st') :
    (add_all b0 tiles).2 = (List.range tiles.length).map (fun i => Except.ok i) ∧
    atlas.textures.length = tiles.length ∧
    (∃ ts, (add_all b0 tiles).1.tile_size = some ts ∧
      ∀ i, i < tiles.length →
        atlas.textures[i]? =
          some (gridRect ts (add_all b0 tiles).1.get_max_columns i)) ∧
    atlas.texture_handles.length = tiles.length ∧
    (∀ i, (hi : i < tiles.length) →
      hashmap_get atlas.texture_handles (tiles.get ⟨i, hi⟩).fst = some i) := by
  obtain ⟨hhandles, hres⟩ := add_all_spec tiles b0 hok
  rw [h0, List.nil_append] at hhandles
  rw [h0] at hres
  simp only [List.length_nil, Nat.zero_add] at hres
  obtain ⟨hlen, hmap, ts, hts, hrects⟩ := finish_ok_shape _ convert store atlas st' hfin
  rw [hhandles] at hlen hmap hrects
  simp only [List.length_map] at hlen hrects
  refine ⟨hres, hlen, ⟨ts, hts, ?_⟩, ?_, ?_⟩
  · intro i hi
    rw [hrects, List.getElem?_map, List.getElem?_range hi]
    rfl
  · rw [hmap, insertAll_length_fresh (tiles.map Prod.fst) [] 0 hdist (fun q _ => rfl)]
    simp
  · intro i hi
    rw [hmap]
    have hg := insertAll_get_self (tiles.map Prod.fst) [] 0 hdist i
      (by simpa using hi)
    simp only [Nat.zero_add] at hg
    have he : (tiles.map Prod.fst).get ⟨i, by simpa using hi⟩ =
        (tiles.get ⟨i, hi⟩).fst := by
      simp [List.get_eq_getElem, List.getElem_map]
    rw [← he]
    exact hg

/-- Witness for the amended C1 on two distinct handles: the two adds return
0 and 1, both the rectangle list and the map have two entries, rectangle `i`
is the i-th grid cell, and each handle maps to its insertion index. -/
theorem C1_order_preservation_witness :
    ∃ atlas st',
      (add_all TileAtlasBuilder.default tilesPair).1.finish convNone storePair =
        .ok atlas st' ∧
      (add_all TileAtlasBuilder.default tilesPair).2 = [Except.ok 0, Except.ok 1] ∧
      atlas.textures.length = 2 ∧
      atlas.textures[0]? = some ⟨⟨0, 0⟩, ⟨1, 1⟩⟩ ∧
      atlas.textures[1]? = some ⟨⟨1, 0⟩, ⟨2, 1⟩⟩ ∧
      atlas.texture_handles.length = 2 ∧
      hashmap_get atlas.texture_handles 3 = some 0 ∧
      hashmap_get atlas.texture_handles 4 = some 1 := by
  have hisok : ((add_all TileAtlasBuilder.default tilesPair).1.finish convNone
      storePair).isOk = true := by decide
  cases hfin : (add_all TileAtlasBuilder.default tilesPair).1.finish convNone
      storePair with
  | ok atlas st' =>
    obtain ⟨h1, h2, ⟨ts, hts, h3⟩, h4, h5⟩ := C1_order_preservation
      TileAtlasBuilder.default tilesPair convNone storePair st' atlas rfl
      (by
        intro r hr
        have hv : (add_all TileAtlasBuilder.default tilesPair).2 =
            [Except.ok 0, Except.ok 1] := rfl
        rw [hv] at hr
        simp only [List.mem_cons, List.not_mem_nil, or_false] at hr
        rcases hr with rfl | rfl
        · exact ⟨0, rfl⟩
        · exact ⟨1, rfl⟩)
      (by decide) hfin
    have hts2 : (⟨1, 1⟩ : Vec2) = ts := by
      have h := hts
      rw [show (add_all TileAtlasBuilder.default tilesPair).1.tile_size =
        some ⟨1, 1⟩ from rfl] at h
      injection h
    subst hts2
    refine ⟨atlas, st', rfl, by rw [h1]; rfl, h2, ?_, ?_, h4, ?_, ?_⟩
    · exact (h3 0 (by decide)).trans (by decide)
    · exact (h3 1 (by decide)).trans (by decide)
    · have := h5 0 (by decide)
      simpa using this
    · have := h5 1 (by decide)
      simpa using this
  | err e st2 =>
    rw [hfin] at hisok
    simp [FinishResult.isOk] at hisok
  | panic =>
    rw [hfin] at hisok
    simp [FinishResult.isOk] at hisok

/-- **C2.** For a builder with at least one tile (and a positive effective
column count, in-range dimensions, and resolvable blit-ready tiles),
`finish` computes `cols` as `get_max_columns`, `rows = ceil(total / cols)`,
stores a composed buffer of dimensions `(cols * tile_w, rows * tile_h)`, and
places tile `i` at the row-major grid rectangle
`min = (i % cols * tile_w, i / cols * tile_h)`, `max = min + tile_size`. -/
theorem C2_grid_geometry (b : TileAtlasBuilder)
    (convert : Texture → TextureFormat → Option Texture) (store : TextureStore)
    (ts : Vec2) (hts : b.tile_size = some ts)
    (hne : 0 < b.handles.length)
    (hcols : 0 < b.get_max_columns)
    (hWlt : b.get_max_columns * ts.x < 2 ^ 32)
    (hHlt : (b.handles.length + b.get_max_columns - 1) / b.get_max_columns * ts.y
      < 2 ^ 32)
    (htiles : ∀ h ∈ b.handles, TileOk b convert store ts h) :
    ∃ atlas store' composed,
      b.finish convert store = .ok atlas store' ∧
      atlas.size = ⟨b.get_max_columns * ts.x,
        (b.handles.length + b.get_max_columns - 1) / b.get_max_columns * ts.y⟩ ∧
      store'.get atlas.texture = some composed ∧
      composed.size.width = b.get_max_columns * ts.x ∧
      composed.size.height =
        (b.handles.length + b.get_max_columns - 1) / b.get_max_columns * ts.y ∧
      atlas.textures.length = b.handles.length ∧
      (∀ i, i < b.handles.length →
        atlas.textures[i]? = some (gridRect ts b.get_max_columns i)) := by
  obtain ⟨composed, store', hfin, hget, _, hcw, hch, _, _⟩ :=
    finish_spec b convert store ts hts (by omega) hcols hWlt hHlt htiles
  refine ⟨_, store', composed, hfin, rfl, hget, hcw, hch, by simp, ?_⟩
  intro i hi
  rw [List.getElem?_map, List.getElem?_range hi]
  rfl

/-- Witness for C2: `max_columns = 3`, seven 16×16 tiles — the atlas buffer
is 48×48 and tile 3 occupies `min = (0,16)`, `max = (16,32)`. -/
theorem C2_grid_geometry_witness :
    ∃ atlas store' composed,
      bGrid.finish convNone storeGrid = .ok atlas store' ∧
      atlas.size = ⟨48, 48⟩ ∧
      store'.get atlas.texture = some composed ∧
      composed.size.width = 48 ∧ composed.size.height = 48 ∧
      atlas.textures.length = 7 ∧
      atlas.textures[3]? = some ⟨⟨0, 16⟩, ⟨16, 32⟩⟩ := by
  obtain ⟨atlas, store', composed, hfin, hsz, hget, hcw, hch, hlen, hrects⟩ :=
    C2_grid_geometry bGrid convNone storeGrid ⟨16, 16⟩ rfl (by decide) (by decide)
      (by decide) (by decide)
      (by
        intro h hmem
        simp only [bGrid, List.mem_cons, List.not_mem_nil, or_false] at hmem
        rcases hmem with rfl | rfl | rfl | rfl | rfl | rfl | rfl <;>
          exact ⟨tile16, rfl, Or.inl ⟨rfl, by decide⟩⟩)
  refine ⟨atlas, store', composed, hfin, ?_, hget, ?_, ?_, hlen, ?_⟩
  · rw [hsz]
    decide
  · rw [hcw]
    decide
  · rw [hch]
    decide
  · have := hrects 3 (by decide)
    rw [this]
    decide

/-- **C5.** With auto-format-conversion disabled, if the tile at some
position is the first whose native format differs from the target (every
earlier tile resolves and matches), `finish` fails there with the Internal
format-mismatch error: no atlas is produced and the store is returned
unchanged, discarding the tiles already processed. -/
theorem C5_strict_format_abort (b : TileAtlasBuilder)
    (convert : Texture → TextureFormat → Option Texture) (store : TextureStore)
    (ts : Vec2) (pre post : List Handle) (hk : Handle) (texk : Texture)
    (hts : b.tile_size = some ts)
    (hsplit : b.handles = pre ++ hk :: post)
    (hauto : b.auto_format_conversion = false)
    (hcols : 0 < b.get_max_columns)
    (hWlt : b.get_max_columns * ts.x < 2 ^ 32)
    (hHlt : (b.handles.length + b.get_max_columns - 1) / b.get_max_columns * ts.y
      < 2 ^ 32)
    (hpre : ∀ h ∈ pre, TileOk b convert store ts h)
    (hgetk : store.get hk = some texk)
    (hmis : texk.format ≠ b.format) :
    b.finish convert store = .err (.Internal .WrongFormat) store := by
  have htot : ¬b.handles.length = 0 := by rw [hsplit]; simp
  have hcolsne : ¬b.get_max_columns = 0 := by omega
  have hAH : (Texture.new_fill
      ⟨u32sat (b.get_max_columns * ts.x),
        u32sat ((b.handles.length + b.get_max_columns - 1) / b.get_max_columns * ts.y),
        1⟩ .D2 [0, 0, 0, 0] b.format).size.height =
      (b.handles.length + b.get_max_columns - 1) / b.get_max_columns * ts.y :=
    u32sat_of_lt hHlt
  have herr := finishLoop_err_at b convert store ts hts
    ((b.handles.length + b.get_max_columns - 1) / b.get_max_columns)
    pre hk post 0 [] []
    (Texture.new_fill
      ⟨u32sat (b.get_max_columns * ts.x),
        u32sat ((b.handles.length + b.get_max_columns - 1) / b.get_max_columns * ts.y),
        1⟩ .D2 [0, 0, 0, 0] b.format)
    hcols
    (by
      have h1 := le_mul_ceil b.handles.length b.get_max_columns hcols
      have h2 : pre.length ≤ b.handles.length := by
        rw [hsplit]
        simp only [List.length_append, List.length_cons]
        omega
      omega)
    (u32sat_of_lt hWlt)
    (le_of_eq hAH.symm)
    rfl
    (by
      rw [new_fill_zero_data]
      simp only [Texture.new_fill, List.length_replicate]
      ring)
    hpre hauto ⟨texk, hgetk, hmis⟩
  rw [Nat.zero_div, Nat.zero_mod] at herr
  unfold TileAtlasBuilder.finish
  rw [if_neg htot, hts]
  dsimp only
  rw [if_neg hcolsne]
  rw [hsplit] at herr ⊢
  rw [herr]

/-- Witness for C5: matching tile at position 0, mismatched tile at
position 1, auto-conversion disabled. -/
theorem C5_strict_format_abort_witness :
    bStrictPair.finish convNone storeMixed =
      .err (.Internal .WrongFormat) storeMixed :=
  C5_strict_format_abort bStrictPair convNone storeMixed ⟨1, 1⟩ [0] [] 1
    mismatchedTile rfl rfl rfl (by decide) (by decide) (by decide)
    (by
      intro h hmem
      simp only [List.mem_cons, List.not_mem_nil, or_false] at hmem
      subst hmem
      exact ⟨matchingTile, rfl, Or.inl ⟨rfl, by decide⟩⟩)
    rfl (by decide)

/-- **C6.** With auto-format-conversion enabled, a tile whose conversion to
the target format fails does not make `finish` fail: `finish` returns `Ok`,
the tile's rectangle and (for distinct handles) its index are still
recorded, and the tile's region of the composed buffer is left as the
zero-fill background. -/
theorem C6_auto_conversion_skip (b : TileAtlasBuilder)
    (convert : Texture → TextureFormat → Option Texture) (store : TextureStore)
    (ts : Vec2) (k : Nat) (texk : Texture)
    (hts : b.tile_size = some ts)
    (hne : 0 < b.handles.length)
    (hcols : 0 < b.get_max_columns)
    (hWlt : b.get_max_columns * ts.x < 2 ^ 32)
    (hHlt : (b.handles.length + b.get_max_columns - 1) / b.get_max_columns * ts.y
      < 2 ^ 32)
    (_hauto : b.auto_format_conversion = true)
    (htiles : ∀ h ∈ b.handles, TileOk b convert store ts h)
    (hk : k < b.handles.length)
    (htexk : store.get (b.handles.get ⟨k, hk⟩) = some texk)
    (hmis : texk.format ≠ b.format) :
    ∃ atlas store' composed,
      b.finish convert store = .ok atlas store' ∧
      atlas.textures.length = b.handles.length ∧
      atlas.textures[k]? = some (gridRect ts b.get_max_columns k) ∧
      atlas.texture_handles = insertAll [] b.handles 0 ∧
      (b.handles.Nodup →
        hashmap_get atlas.texture_handles (b.handles.get ⟨k, hk⟩) = some k) ∧
      store'.get atlas.texture = some composed ∧
      readCell composed.data composed.size.width b.format.pixel_size ts
        b.get_max_columns k =
        List.replicate (ts.y * (ts.x * b.format.pixel_size)) 0 := by
  obtain ⟨composed, store', hfin, hget, _, _, _, _, hcell⟩ :=
    finish_spec b convert store ts hts (by omega) hcols hWlt hHlt htiles
  refine ⟨_, store', composed, hfin, by simp, ?_, rfl, ?_, hget, ?_⟩
  · rw [List.getElem?_map, List.getElem?_range hk]
    rfl
  · intro hnd
    have := insertAll_get_self b.handles [] 0 hnd k hk
    simpa using this
  · exact (hcell k hk texk htexk).2 hmis

/-- Witness for C6: the second tile's format mismatches and conversion
fails; `finish` still succeeds and the cell stays zero-filled. -/
theorem C6_auto_conversion_skip_witness :
    ∃ atlas store' composed,
      bAutoPair.finish convNone storeMixed = .ok atlas store' ∧
      atlas.textures.length = 2 ∧
      atlas.textures[1]? = some (gridRect ⟨1, 1⟩ 2 1) ∧
      atlas.texture_handles = insertAll [] [0, 1] 0 ∧
      (([0, 1] : List Handle).Nodup →
        hashmap_get atlas.texture_handles 1 = some 1) ∧
      store'.get atlas.texture = some composed ∧
      readCell composed.data composed.size.width
        TextureFormat.Rgba8UnormSrgb.pixel_size ⟨1, 1⟩ 2 1 =
        List.replicate 4 0 := by
  obtain ⟨atlas, store', composed, hfin, h1, h2, h3, h4, h5, h6⟩ :=
    C6_auto_conversion_skip bAutoPair convNone storeMixed ⟨1, 1⟩ 1
      mismatchedTile rfl (by decide) (by decide) (by decide) (by decide) rfl
      (by
        intro h hmem
        simp only [bAutoPair, List.mem_cons, List.not_mem_nil, or_false] at hmem
        rcases hmem with rfl | rfl
        · exact ⟨matchingTile, rfl, Or.inl ⟨rfl, by decide⟩⟩
        · exact ⟨mismatchedTile, rfl, Or.inr ⟨by decide, rfl, rfl⟩⟩)
      (by decide) rfl (by decide)
  exact ⟨atlas, store', composed, hfin, h1, h2, h3, h4, h5, h6⟩

/-- **C7.** For a tile whose format equals the target, whose dimensions
equal the tile size, and whose pixels are a uniform solid color, the bytes
of that tile's sub-rectangle in the composed buffer after `finish` equal the
tile's bytes exactly — the blit is an identity copy when formats match. -/
theorem C7_round_trip_blit (b : TileAtlasBuilder)
    (convert : Texture → TextureFormat → Option Texture) (store : TextureStore)
    (ts : Vec2) (k : Nat) (texk : Texture) (pixel : List Nat)
    (hts : b.tile_size = some ts)
    (hne : 0 < b.handles.length)
    (hcols : 0 < b.get_max_columns)
    (hWlt : b.get_max_columns * ts.x < 2 ^ 32)
    (hHlt : (b.handles.length + b.get_max_columns - 1) / b.get_max_columns * ts.y
      < 2 ^ 32)
    (htiles : ∀ h ∈ b.handles, TileOk b convert store ts h)
    (hk : k < b.handles.length)
    (htexk : store.get (b.handles.get ⟨k, hk⟩) = some texk)
    (hfm : texk.format = b.format)
    (_hdw : texk.size.width = ts.x) (_hdh : texk.size.height = ts.y)
    (hpix : pixel.length = b.format.pixel_size)
    (hsolid : texk.data = (List.replicate (ts.x * ts.y) pixel).flatten) :
    ∃ atlas store' composed,
      b.finish convert store = .ok atlas store' ∧
      store'.get atlas.texture = some composed ∧
      readCell composed.data composed.size.width b.format.pixel_size ts
        b.get_max_columns k = texk.data := by
  obtain ⟨composed, store', hfin, hget, _, _, _, _, hcell⟩ :=
    finish_spec b convert store ts hts (by omega) hcols hWlt hHlt htiles
  refine ⟨_, store', composed, hfin, hget, ?_⟩
  rw [(hcell k hk texk htexk).1 hfm]
  have hlen : texk.data.length = ts.y * (ts.x * b.format.pixel_size) := by
    rw [hsolid, length_flatten_replicate, hpix]
    ring
  rw [← hlen, List.take_length]

/-- Witness for C7: one solid-color 1×1 tile; the composed buffer's cell 0
holds exactly the tile's bytes. -/
theorem C7_round_trip_blit_witness :
    ∃ atlas store' composed,
      bSingle.finish convNone storeSingle = .ok atlas store' ∧
      store'.get atlas.texture = some composed ∧
      readCell composed.data composed.size.width
        TextureFormat.Rgba8UnormSrgb.pixel_size ⟨1, 1⟩ 1 0 =
        matchingTile.data := by
  obtain ⟨atlas, store', composed, hfin, hget, hcell⟩ :=
    C7_round_trip_blit bSingle convNone storeSingle ⟨1, 1⟩ 0 matchingTile
      [1, 2, 3, 4] rfl (by decide) (by decide) (by decide) (by decide)
      (by
        intro h hmem
        simp only [bSingle, List.mem_cons, List.not_mem_nil, or_false] at hmem
        subst hmem
        exact ⟨matchingTile, rfl, Or.inl ⟨rfl, by decide⟩⟩)
      (by decide) rfl rfl rfl rfl (by decide) (by decide)
  exact ⟨atlas, store', composed, hfin, hget, hcell⟩

end BevyTileAtlas
